import Mathlib

/-!
Verification development for the Local-Messenger chat relay server.

The definitions below are a shallow embedding of the socket event handlers
of src/server.js: the in-memory room store (a JS Map of room records, each
holding a JS Set of member socket ids), the connection registry (a JS Map
of user records), and the socket.io channel state that the broadcast
primitives io.to(roomId) and socket.to(roomId) consult.  JS Maps are
embedded as association lists (aset replaces the binding of an existing
key in place, mirroring Map.set; aerase mirrors Map.delete), JS Sets as
duplicate-free lists in insertion order (setAdd mirrors Set.add, setDel
mirrors Set.delete).  Date.now() is passed to each handler as an explicit
millisecond timestamp.  Every outbound emit is recorded as one Event per
recipient connection, so a broadcast appears as the list of its deliveries.
-/

/-- Association list lookup, mirroring JS Map.get: the first binding wins. -/
def alookup {α β : Type} [DecidableEq α] : List (α × β) → α → Option β
  | [], _ => none
  | (k2, v) :: rest, k => if k2 = k then some v else alookup rest k

/-- Association list update, mirroring JS Map.set: replace the binding of an
existing key in place, otherwise append a new binding at the end. -/
def aset {α β : Type} [DecidableEq α] : List (α × β) → α → β → List (α × β)
  | [], k, v => [(k, v)]
  | (k2, v2) :: rest, k, v =>
      if k2 = k then (k, v) :: rest else (k2, v2) :: aset rest k v

/-- Association list removal, mirroring JS Map.delete. -/
def aerase {α β : Type} [DecidableEq α] (m : List (α × β)) (k : α) : List (α × β) :=
  m.filter (fun p => p.1 ≠ k)

/-- JS Set.add: append the element if it is not already present. -/
def setAdd (s : List Nat) (x : Nat) : List Nat :=
  if x ∈ s then s else s ++ [x]

/-- JS Set.delete: remove the element. -/
def setDel (s : List Nat) (x : Nat) : List Nat :=
  s.filter (fun y => y ≠ x)

/-- A registered connection, as stored in the users Map of src/server.js. -/
structure UserRec where
  id : Nat
  username : String
  connectedAt : Nat
  currentRoom : Option String
deriving DecidableEq

/-- A room record, as stored in the rooms Map of src/server.js.  The users
field is the member set of socket ids.  The record keeps no message log:
src/server.js stores no message history anywhere. -/
structure RoomRec where
  id : String
  name : String
  description : String
  createdBy : Nat
  createdAt : Nat
  users : List Nat
deriving DecidableEq

/-- The room summary sent by the get-rooms handler. -/
structure RoomSummary where
  id : String
  name : String
  description : String
  userCount : Nat
  createdAt : Nat
deriving DecidableEq

/-- The room header sent inside a room-joined payload. -/
structure RoomInfo where
  id : String
  name : String
  description : String
  userCount : Nat
deriving DecidableEq

/-- An id plus display name pair, as sent in presence payloads. -/
structure UserInfo where
  id : Nat
  username : String
deriving DecidableEq

/-- A chat message as built by the send-message handler. -/
structure MessageRec where
  id : String
  roomId : String
  content : String
  senderId : Nat
  senderName : String
  timestamp : Nat
deriving DecidableEq

/-- One outbound delivery: the first argument is always the recipient
connection.  A broadcast is represented by one event per recipient. -/
inductive Event where
  | welcome (target : Nat) (message : String) (userId : Nat) (serverTime : Nat)
  | roomsList (target : Nat) (list : List RoomSummary)
  | roomCreated (target : Nat) (roomId : String) (name : String) (description : String)
  | roomJoined (target : Nat) (room : RoomInfo) (users : List UserInfo)
  | userJoined (target : Nat) (user : UserInfo) (userCount : Nat)
  | newMessage (target : Nat) (msg : MessageRec)
  | userLeft (target : Nat) (user : UserInfo) (userCount : Nat)
  | errorEvt (target : Nat) (message : String)
deriving DecidableEq

/-- The whole in-memory server state: the rooms Map, the users Map, and the
socket.io channel membership that io.to and socket.to consult. -/
structure ServerState where
  rooms : List (String × RoomRec)
  users : List (Nat × UserRec)
  channels : List (String × List Nat)
deriving DecidableEq

/-- The state at server start: empty Maps, no channels. -/
def initState : ServerState := ⟨[], [], []⟩

/-- The inbound client actions handled by src/server.js. -/
inductive Act where
  | connect (sid : Nat)
  | getRooms (sid : Nat)
  | createRoom (sid : Nat) (name : Option String) (description : Option String)
  | joinRoom (sid : Nat) (roomId : String)
  | sendMessage (sid : Nat) (roomId : String) (content : String)
  | leaveRoom (sid : Nat) (roomId : String)
  | disconnect (sid : Nat)
deriving DecidableEq

/-- The generated default username, modelling the template literal built
from the socket id at connection time. -/
def mkUsername (sid : Nat) : String := "user_" ++ Nat.repr sid

/-- Room id generation in the create-room handler: the string interpolation
of Date.now(), so the decimal rendering of the millisecond timestamp. -/
def mkRoomId (t : Nat) : String := "room_" ++ Nat.repr t

/-- Message id generation in the send-message handler. -/
def mkMsgId (t : Nat) : String := "msg_" ++ Nat.repr t

/-- The members of a socket.io channel; a channel that was never joined is
empty. -/
def channelOf (s : ServerState) (rid : String) : List Nat :=
  (alookup s.channels rid).getD []

/-- The JS truthiness default used as data.name or a fallback string: an
absent or empty string falls back to the default. -/
def orElseStr (v : Option String) (d : String) : String :=
  match v with
  | some str => if str = "" then d else str
  | none => d

/-- The username lookup used in broadcast payloads, mirroring the JS
expression that falls back to the string Unknown when the user record is
missing or its username is falsy. -/
def usernameOr (s : ServerState) (uid : Nat) : String :=
  match alookup s.users uid with
  | some u => if u.username = "" then ("Unknown") else u.username
  | none => ("Unknown")

/-- Connection handler: register the user record and emit welcome. -/
def execConnect (s : ServerState) (sid : Nat) (t : Nat) : ServerState × List Event :=
  ({ s with users := aset s.users sid ⟨sid, mkUsername sid, t, none⟩ },
   [Event.welcome sid ("Welcome to Local Messenger!") sid t])

/-- Summary of one room record for the rooms-list payload. -/
def roomSummary (r : RoomRec) : RoomSummary :=
  ⟨r.id, r.name, r.description, r.users.length, r.createdAt⟩

/-- The get-rooms handler: emit the list of room summaries to the requester. -/
def execGetRooms (s : ServerState) (sid : Nat) : ServerState × List Event :=
  (s, [Event.roomsList sid (s.rooms.map (fun p => roomSummary p.2))])

/-- The create-room handler: build the room keyed by the Date.now() based id
(overwriting any room that already has that id, as Map.set does), join the
creator to the socket.io channel, and emit room-created to the creator. -/
def execCreateRoom (s : ServerState) (sid : Nat) (name : Option String)
    (description : Option String) (t : Nat) : ServerState × List Event :=
  let rid := mkRoomId t
  let room : RoomRec :=
    ⟨rid, orElseStr name ("New Room"), orElseStr description ("Chat room"), sid, t, [sid]⟩
  ({ rooms := aset s.rooms rid room,
     users := s.users,
     channels := aset s.channels rid (setAdd (channelOf s rid) sid) },
   [Event.roomCreated sid rid room.name room.description])

/-- The join-room handler.  On an existing room: add the socket to the
member set and the channel, set currentRoom, emit room-joined to the joiner
(member list with usernames, member count after the add), then user-joined
to every other channel member.  On an unknown room: emit an error.  If the
user record were missing the JS code would throw after the two mutations
and before any emit; that dead branch is kept faithfully. -/
def execJoinRoom (s : ServerState) (sid : Nat) (rid : String) : ServerState × List Event :=
  match alookup s.rooms rid with
  | none => (s, [Event.errorEvt sid ("Room not found")])
  | some room =>
      let newUsers := setAdd room.users sid
      let room1 : RoomRec := { room with users := newUsers }
      let chan1 := setAdd (channelOf s rid) sid
      let s1 : ServerState :=
        { rooms := aset s.rooms rid room1, users := s.users,
          channels := aset s.channels rid chan1 }
      match alookup s.users sid with
      | none => (s1, [])
      | some u =>
          let s2 : ServerState :=
            { s1 with users := aset s1.users sid { u with currentRoom := some rid } }
          (s2,
           Event.roomJoined sid ⟨room1.id, room1.name, room1.description, newUsers.length⟩
               (newUsers.map (fun m => ⟨m, usernameOr s2 m⟩))
             :: (setDel chan1 sid).map
               (fun r => Event.userJoined r ⟨sid, u.username⟩ newUsers.length))

/-- The send-message handler: error if room or user is missing, error if
the sender is not in the member set, otherwise broadcast the message via
io.to(roomId), that is to every channel member including the sender.  The
content is never validated and the state never changes. -/
def execSendMessage (s : ServerState) (sid : Nat) (rid : String) (content : String)
    (t : Nat) : ServerState × List Event :=
  match alookup s.rooms rid, alookup s.users sid with
  | some room, some u =>
      if sid ∈ room.users then
        (s, (channelOf s rid).map
          (fun r => Event.newMessage r ⟨mkMsgId t, rid, content, u.id, u.username, t⟩))
      else (s, [Event.errorEvt sid ("Not in this room")])
  | _, _ => (s, [Event.errorEvt sid ("Room or user not found")])

/-- The leave-room handler: when both room and user exist, remove the
socket from the member set and the channel, clear currentRoom, and emit
user-left via socket.to(roomId), that is to every channel member except the
leaver, carrying the member count after the removal.  Otherwise do nothing
at all (no error event). -/
def execLeaveRoom (s : ServerState) (sid : Nat) (rid : String) : ServerState × List Event :=
  match alookup s.rooms rid, alookup s.users sid with
  | some room, some u =>
      let newUsers := setDel room.users sid
      let room1 : RoomRec := { room with users := newUsers }
      let chans :=
        match alookup s.channels rid with
        | none => s.channels
        | some l => aset s.channels rid (setDel l sid)
      let s1 : ServerState :=
        { rooms := aset s.rooms rid room1,
          users := aset s.users sid { u with currentRoom := none },
          channels := chans }
      (s1, (setDel ((alookup chans rid).getD []) sid).map
        (fun r => Event.userLeft r ⟨u.id, u.username⟩ newUsers.length))
  | _, _ => (s, [])

/-- The disconnect handler: socket.io first removes the socket from every
channel, then the handler walks the rooms Map, removes the socket from the
member set of every room that contains it and emits user-left to the
remaining channel members of that room, and finally deletes the user
record.  Rooms that do not contain the socket are untouched and produce no
events.  No room is ever deleted. -/
def execDisconnect (s : ServerState) (sid : Nat) : ServerState × List Event :=
  let chans := s.channels.map (fun p => (p.1, setDel p.2 sid))
  let uname := usernameOr s sid
  ({ rooms := s.rooms.map (fun p =>
       (p.1, if sid ∈ p.2.users then { p.2 with users := setDel p.2.users sid } else p.2)),
     users := aerase s.users sid,
     channels := chans },
   s.rooms.flatMap (fun p =>
     if sid ∈ p.2.users then
       (setDel ((alookup chans p.1).getD []) sid).map
         (fun r => Event.userLeft r ⟨sid, uname⟩ (setDel p.2.users sid).length)
     else []))

/-- One dispatcher step: run the handler of the action at millisecond t. -/
def exec (s : ServerState) (a : Act) (t : Nat) : ServerState × List Event :=
  match a with
  | .connect sid => execConnect s sid t
  | .getRooms sid => execGetRooms s sid
  | .createRoom sid name description => execCreateRoom s sid name description t
  | .joinRoom sid rid => execJoinRoom s sid rid
  | .sendMessage sid rid content => execSendMessage s sid rid content t
  | .leaveRoom sid rid => execLeaveRoom s sid rid
  | .disconnect sid => execDisconnect s sid

/-- Transport side conditions under which the dispatcher is ever invoked:
a connect event carries a socket id that is not currently registered, and
every other handler only fires for a currently registered socket, because
src/server.js installs the handlers inside the connection callback right
after registering the socket. -/
def allowedB (s : ServerState) (a : Act) : Bool :=
  match a with
  | .connect sid => (alookup s.users sid).isNone
  | .getRooms sid => (alookup s.users sid).isSome
  | .createRoom sid _ _ => (alookup s.users sid).isSome
  | .joinRoom sid _ => (alookup s.users sid).isSome
  | .sendMessage sid _ _ => (alookup s.users sid).isSome
  | .leaveRoom sid _ => (alookup s.users sid).isSome
  | .disconnect sid => (alookup s.users sid).isSome

/-- Transport side conditions plus the additional assumption that a
create-room action never reuses the id of an existing room, which holds
exactly when no two create-room actions fall into the same millisecond. -/
def allowedD (s : ServerState) (a : Act) (t : Nat) : Bool :=
  allowedB s a &&
    (match a with
     | .createRoom _ _ _ => (alookup s.rooms (mkRoomId t)).isNone
     | _ => true)

/-- The states reachable from server start through handler invocations that
respect the transport side conditions. -/
inductive Reach : ServerState → Prop where
  | init : Reach initState
  | next (s : ServerState) (a : Act) (t : Nat) (h : Reach s)
      (ha : allowedB s a = true) : Reach (exec s a t).1

/-- Reachability through collision-free traces: as Reach, and additionally
no create-room action reuses an existing room id. -/
inductive ReachD : ServerState → Prop where
  | init : ReachD initState
  | next (s : ServerState) (a : Act) (t : Nat) (h : ReachD s)
      (ha : allowedD s a t = true) : ReachD (exec s a t).1

/-- Run a list of timestamped actions, returning the final state. -/
def runTrace (s : ServerState) : List (Act × Nat) → ServerState
  | [] => s
  | (a, t) :: rest => runTrace (exec s a t).1 rest

/-- Run a list of timestamped actions, returning every emitted event. -/
def runEvents (s : ServerState) : List (Act × Nat) → List Event
  | [] => []
  | (a, t) :: rest => (exec s a t).2 ++ runEvents (exec s a t).1 rest

/-- Decidable check that a trace satisfies the collision-free transport
side conditions from a given state. -/
def traceOKD (s : ServerState) : List (Act × Nat) → Bool
  | [] => true
  | (a, t) :: rest => allowedD s a t && traceOKD (exec s a t).1 rest

/-! ### Association list and set lemmas -/

theorem alookup_aset_self {α β : Type} [DecidableEq α] (m : List (α × β)) (k : α) (v : β) :
    alookup (aset m k v) k = some v := by
  induction m with
  | nil => simp [aset, alookup]
  | cons p rest ih =>
    obtain ⟨k2, v2⟩ := p
    by_cases h : k2 = k
    · simp [aset, h, alookup]
    · simp [aset, h, alookup, ih]

theorem alookup_aset_ne {α β : Type} [DecidableEq α] (m : List (α × β)) (k k2 : α) (v : β)
    (h : k2 ≠ k) : alookup (aset m k v) k2 = alookup m k2 := by
  have hne : k ≠ k2 := Ne.symm h
  induction m with
  | nil => simp [aset, alookup, hne]
  | cons p rest ih =>
    obtain ⟨k3, v3⟩ := p
    by_cases h3 : k3 = k
    · subst h3
      simp [aset, alookup, hne]
    · by_cases h32 : k3 = k2
      · subst h32
        simp [aset, h3, alookup]
      · simp [aset, h3, alookup, h32, ih]

theorem isSome_alookup_aset {α β : Type} [DecidableEq α] (m : List (α × β)) (k k2 : α) (v : β)
    (h : (alookup m k2).isSome = true) : (alookup (aset m k v) k2).isSome = true := by
  by_cases hk : k2 = k
  · subst hk; simp [alookup_aset_self]
  · rwa [alookup_aset_ne m k k2 v hk]

theorem alookup_aerase {α β : Type} [DecidableEq α] (m : List (α × β)) (k k2 : α) :
    alookup (aerase m k) k2 = if k2 = k then none else alookup m k2 := by
  induction m with
  | nil => simp [aerase, alookup]
  | cons p rest ih =>
    obtain ⟨k3, v3⟩ := p
    by_cases h3 : k3 = k
    · subst h3
      have h1 : aerase ((k3, v3) :: rest) k3 = aerase rest k3 := by
        simp [aerase, List.filter_cons]
      rw [h1, ih]
      by_cases h2 : k2 = k3
      · simp [h2]
      · simp [h2, alookup, Ne.symm h2]
    · have h1 : aerase ((k3, v3) :: rest) k = (k3, v3) :: aerase rest k := by
        simp [aerase, List.filter_cons, h3]
      rw [h1]
      by_cases h32 : k3 = k2
      · subst h32
        simp [alookup, h3]
      · simp [alookup, h32, ih]

theorem aset_eq_of_alookup {α β : Type} [DecidableEq α] (m : List (α × β)) (k : α) (v : β)
    (h : alookup m k = some v) : aset m k v = m := by
  induction m with
  | nil => simp [alookup] at h
  | cons p rest ih =>
    obtain ⟨k2, v2⟩ := p
    by_cases h2 : k2 = k
    · subst h2
      simp [alookup] at h
      simp [aset, h]
    · simp [alookup, h2] at h
      simp [aset, h2, ih h]

theorem alookup_mem {α β : Type} [DecidableEq α] (m : List (α × β)) (k : α) (v : β)
    (h : alookup m k = some v) : (k, v) ∈ m := by
  induction m with
  | nil => simp [alookup] at h
  | cons p rest ih =>
    obtain ⟨k2, v2⟩ := p
    by_cases h2 : k2 = k
    · subst h2
      simp [alookup] at h
      simp [h]
    · simp [alookup, h2] at h
      simp [ih h]

theorem mem_alookup {α β : Type} [DecidableEq α] (m : List (α × β)) (p : α × β)
    (hk : (m.map Prod.fst).Nodup) (hp : p ∈ m) : alookup m p.1 = some p.2 := by
  induction m with
  | nil => simp at hp
  | cons q rest ih =>
    obtain ⟨k2, v2⟩ := q
    simp only [List.map_cons, List.nodup_cons] at hk
    rcases List.mem_cons.mp hp with h | h
    · subst h; simp [alookup]
    · have hne : k2 ≠ p.1 := by
        intro he
        apply hk.1
        rw [he]
        exact List.mem_map.mpr ⟨p, h, rfl⟩
      simp [alookup, hne, ih hk.2 h]

theorem mem_keys_aset {α β : Type} [DecidableEq α] (m : List (α × β)) (k x : α) (v : β) :
    x ∈ (aset m k v).map Prod.fst ↔ x ∈ m.map Prod.fst ∨ x = k := by
  induction m with
  | nil => simp [aset]
  | cons p rest ih =>
    obtain ⟨k2, v2⟩ := p
    by_cases h2 : k2 = k
    · subst h2
      simp [aset]
      tauto
    · simp [aset, h2, ih]
      tauto

theorem nodupKeys_aset {α β : Type} [DecidableEq α] (m : List (α × β)) (k : α) (v : β)
    (h : (m.map Prod.fst).Nodup) : ((aset m k v).map Prod.fst).Nodup := by
  induction m with
  | nil => simp [aset]
  | cons p rest ih =>
    obtain ⟨k2, v2⟩ := p
    simp only [List.map_cons, List.nodup_cons] at h
    by_cases h2 : k2 = k
    · subst h2
      have h1 : aset ((k2, v2) :: rest) k2 v = (k2, v) :: rest := by simp [aset]
      rw [h1]
      simp only [List.map_cons, List.nodup_cons]
      exact ⟨h.1, h.2⟩
    · simp only [aset, if_neg h2, List.map_cons, List.nodup_cons]
      refine ⟨fun hc => ?_, ih h.2⟩
      rcases (mem_keys_aset rest k k2 v).mp hc with hc2 | hc2
      · exact h.1 hc2
      · exact h2 hc2

theorem nodupKeys_aerase {α β : Type} [DecidableEq α] (m : List (α × β)) (k : α)
    (h : (m.map Prod.fst).Nodup) : ((aerase m k).map Prod.fst).Nodup := by
  have hs : List.Sublist (aerase m k) m := List.filter_sublist m
  exact List.Nodup.sublist (List.Sublist.map Prod.fst hs) h

theorem alookup_mapSnd {α β : Type} [DecidableEq α] (m : List (α × β)) (g : β → β) (k : α) :
    alookup (m.map (fun p => (p.1, g p.2))) k = (alookup m k).map g := by
  induction m with
  | nil => simp [alookup]
  | cons p rest ih =>
    obtain ⟨k2, v2⟩ := p
    by_cases h2 : k2 = k
    · subst h2; simp [alookup]
    · simp [alookup, h2, ih]

theorem mem_setAdd (s : List Nat) (x y : Nat) : y ∈ setAdd s x ↔ y ∈ s ∨ y = x := by
  unfold setAdd
  by_cases h : x ∈ s
  · simp only [if_pos h]
    constructor
    · exact fun hy => Or.inl hy
    · rintro (hy | rfl)
      · exact hy
      · exact h
  · simp [if_neg h]

theorem self_mem_setAdd (s : List Nat) (x : Nat) : x ∈ setAdd s x :=
  (mem_setAdd s x x).mpr (Or.inr rfl)

theorem setAdd_of_mem (s : List Nat) (x : Nat) (h : x ∈ s) : setAdd s x = s := by
  simp [setAdd, h]

theorem nodup_setAdd (s : List Nat) (x : Nat) (h : s.Nodup) : (setAdd s x).Nodup := by
  unfold setAdd
  by_cases hx : x ∈ s
  · simpa [hx]
  · rw [if_neg hx, List.nodup_append]
    refine ⟨h, List.nodup_singleton x, ?_⟩
    intro a ha ha2
    have hax : a = x := by simpa using ha2
    subst hax
    exact hx ha

theorem mem_setDel (s : List Nat) (x y : Nat) : y ∈ setDel s x ↔ y ∈ s ∧ y ≠ x := by
  simp [setDel]

theorem not_mem_setDel (s : List Nat) (x : Nat) : x ∉ setDel s x := by
  simp [mem_setDel]

theorem setDel_of_not_mem (s : List Nat) (x : Nat) (h : x ∉ s) : setDel s x = s := by
  unfold setDel
  apply List.filter_eq_self.mpr
  intro a ha
  simp only [ne_eq, decide_eq_true_eq]
  exact fun he => h (he ▸ ha)

theorem nodup_setDel (s : List Nat) (x : Nat) (h : s.Nodup) : (setDel s x).Nodup :=
  (List.filter_sublist s).nodup h

theorem setDel_setAdd_self (s : List Nat) (x : Nat) : setDel (setAdd s x) x = setDel s x := by
  unfold setAdd
  by_cases hx : x ∈ s
  · simp [hx]
  · simp only [if_neg hx, setDel, List.filter_append]
    simp

theorem setDel_setDel_self (s : List Nat) (x : Nat) : setDel (setDel s x) x = setDel s x := by
  simp [setDel, List.filter_filter]

theorem length_setDel_of_mem (s : List Nat) (x : Nat) (hn : s.Nodup) (hx : x ∈ s) :
    s.length = (setDel s x).length + 1 := by
  induction s with
  | nil => simp at hx
  | cons a rest ih =>
    simp only [List.nodup_cons] at hn
    by_cases hax : a = x
    · subst hax
      have hstep2 : setDel (a :: rest) a = setDel rest a := by
        simp [setDel, List.filter_cons]
      rw [hstep2, setDel_of_not_mem rest a hn.1]
      simp
    · have hx2 : x ∈ rest := by
        rcases List.mem_cons.mp hx with h | h
        · exact absurd h.symm hax
        · exact h
      have hstep : setDel (a :: rest) x = a :: setDel rest x := by
        simp only [setDel, List.filter_cons]
        simp [hax]
      rw [hstep]
      simp only [List.length_cons]
      rw [ih hn.2 hx2]

/-! ### Decimal rendering facts, for the uniqueness claim about room ids -/

theorem toDigitsCore_append (fuel n : Nat) (acc : List Char) :
    Nat.toDigitsCore 10 fuel n acc = Nat.toDigitsCore 10 fuel n [] ++ acc := by
  induction fuel generalizing n acc with
  | zero => simp [Nat.toDigitsCore]
  | succ fuel ih =>
    simp only [Nat.toDigitsCore]
    by_cases h : n / 10 = 0
    · simp [h]
    · simp only [h, if_neg, ite_false]
      rw [ih (n / 10) (Nat.digitChar (n % 10) :: acc), ih (n / 10) [Nat.digitChar (n % 10)]]
      simp

theorem toDigitsCore_fuel (n : Nat) : ∀ fuel1 fuel2 : Nat, n < fuel1 → n < fuel2 →
    Nat.toDigitsCore 10 fuel1 n [] = Nat.toDigitsCore 10 fuel2 n [] := by
  induction n using Nat.strong_induction_on with
  | _ n ih =>
    intro fuel1 fuel2 h1 h2
    match fuel1, fuel2 with
    | f1 + 1, f2 + 1 =>
      simp only [Nat.toDigitsCore]
      by_cases h : n / 10 = 0
      · simp [h]
      · simp only [h, if_neg, ite_false]
        have hn0 : 0 < n := Nat.pos_of_ne_zero (fun hn => by simp [hn] at h)
        have hlt : n / 10 < n := Nat.div_lt_self hn0 (by norm_num)
        rw [toDigitsCore_append f1, toDigitsCore_append f2]
        congr 1
        exact ih (n / 10) hlt f1 f2 (by omega) (by omega)

theorem toDigits_eq_rec (n : Nat) :
    Nat.toDigits 10 n = if n < 10 then [Nat.digitChar n]
      else Nat.toDigits 10 (n / 10) ++ [Nat.digitChar (n % 10)] := by
  by_cases h : n < 10
  · have hdiv : n / 10 = 0 := Nat.div_eq_of_lt h
    simp [Nat.toDigits, Nat.toDigitsCore, hdiv, Nat.mod_eq_of_lt h, h]
  · have hdiv : n / 10 ≠ 0 := by
      intro hc
      exact h ((Nat.div_eq_zero_iff (by norm_num)).mp hc)
    simp only [Nat.toDigits, Nat.toDigitsCore, hdiv, if_neg, ite_false, h]
    rw [toDigitsCore_append n (n / 10) [Nat.digitChar (n % 10)]]
    congr 1
    have hn0 : 0 < n := Nat.pos_of_ne_zero (fun hn => by simp [hn] at hdiv)
    have hlt : n / 10 < n := Nat.div_lt_self hn0 (by norm_num)
    exact toDigitsCore_fuel (n / 10) n (n / 10 + 1) hlt (Nat.lt_succ_self _)

/-- The numeric value of a list of decimal digit characters. -/
def digitsVal (l : List Char) : Nat :=
  l.foldl (fun a c => a * 10 + (c.toNat - 48)) 0

theorem digitChar_val (d : Nat) (h : d < 10) : (Nat.digitChar d).toNat - 48 = d := by
  interval_cases d <;> rfl

theorem digitsVal_toDigits (n : Nat) : digitsVal (Nat.toDigits 10 n) = n := by
  induction n using Nat.strong_induction_on with
  | _ n ih =>
    rw [toDigits_eq_rec n]
    by_cases h : n < 10
    · simp [h, digitsVal, digitChar_val n h]
    · have hn0 : 0 < n := by omega
      have hlt : n / 10 < n := Nat.div_lt_self hn0 (by norm_num)
      simp only [h, if_neg, ite_false]
      unfold digitsVal
      rw [List.foldl_append]
      have hrec : List.foldl (fun a c => a * 10 + (c.toNat - 48)) 0 (Nat.toDigits 10 (n / 10))
          = n / 10 := ih (n / 10) hlt
      rw [hrec]
      simp only [List.foldl_cons, List.foldl_nil]
      rw [digitChar_val (n % 10) (Nat.mod_lt n (by norm_num))]
      omega

theorem natRepr_inj (m n : Nat) (h : Nat.repr m = Nat.repr n) : m = n := by
  have hd : Nat.toDigits 10 m = Nat.toDigits 10 n := by
    have hdata := congrArg String.data h
    simpa [Nat.repr, List.asString] using hdata
  rw [← digitsVal_toDigits m, ← digitsVal_toDigits n, hd]

theorem string_append_inj (a b c : String) (h : a ++ b = a ++ c) : b = c := by
  have hdata := congrArg String.data h
  simp only [String.data_append] at hdata
  have hbc := List.append_cancel_left hdata
  cases b
  cases c
  exact congrArg String.mk hbc

theorem mkUsername_ne_empty (sid : Nat) : mkUsername sid ≠ "" := by
  intro h
  have hdata := congrArg String.data h
  simp [mkUsername, String.data_append] at hdata

/-! ### Definitions modelled from the spec, used to state the claims -/

/-- Modelled from the spec: content that is empty after trimming whitespace.
The JS String.trim yields the empty string exactly when every character of
the content is whitespace. -/
def isBlank (s : String) : Bool :=
  s.data.all Char.isWhitespace

/-- Modelled from the spec: the grace period (reference value 5 minutes, in
milliseconds) after which an empty room is supposed to be deleted.  The
code of src/server.js has no such timer; the constant exists only to state
the deletion claim. -/
def gracePeriodMs : Nat := 300000

/-- Modelled from the spec: the retained message history of a room, which
the spec says the room-joined response must contain.  Since src/server.js
stores no messages, the history is reconstructed as the distinct messages
that were successfully broadcast to the room during a trace. -/
def specHistory (tr : List (Act × Nat)) (rid : String) : List MessageRec :=
  ((runEvents initState tr).filterMap (fun e =>
    match e with
    | Event.newMessage _ m => if m.roomId = rid then some m else none
    | _ => none)).dedup

/-! ### Handler shape lemmas -/

/-- The room record built by the create-room handler. -/
def createdRoom (sid : Nat) (name description : Option String) (t : Nat) : RoomRec :=
  ⟨mkRoomId t, orElseStr name ("New Room"), orElseStr description ("Chat room"), sid, t, [sid]⟩

theorem execCreateRoom_def (s : ServerState) (sid : Nat) (name description : Option String)
    (t : Nat) : execCreateRoom s sid name description t =
      ({ rooms := aset s.rooms (mkRoomId t) (createdRoom sid name description t),
         users := s.users,
         channels := aset s.channels (mkRoomId t) (setAdd (channelOf s (mkRoomId t)) sid) },
       [Event.roomCreated sid (mkRoomId t) (orElseStr name ("New Room"))
         (orElseStr description ("Chat room"))]) := rfl

/-- The state after a successful join. -/
def joinedState (s : ServerState) (sid : Nat) (rid : String) (room : RoomRec)
    (u : UserRec) : ServerState :=
  { rooms := aset s.rooms rid { room with users := setAdd room.users sid },
    users := aset s.users sid { u with currentRoom := some rid },
    channels := aset s.channels rid (setAdd (channelOf s rid) sid) }

theorem execJoinRoom_none (s : ServerState) (sid : Nat) (rid : String)
    (h : alookup s.rooms rid = none) :
    execJoinRoom s sid rid = (s, [Event.errorEvt sid ("Room not found")]) := by
  simp [execJoinRoom, h]

theorem execJoinRoom_some (s : ServerState) (sid : Nat) (rid : String) (room : RoomRec)
    (u : UserRec) (hr : alookup s.rooms rid = some room) (hu : alookup s.users sid = some u) :
    execJoinRoom s sid rid =
      (joinedState s sid rid room u,
       Event.roomJoined sid ⟨room.id, room.name, room.description, (setAdd room.users sid).length⟩
           ((setAdd room.users sid).map
             (fun m => ⟨m, usernameOr (joinedState s sid rid room u) m⟩))
         :: (setDel (setAdd (channelOf s rid) sid) sid).map
           (fun r => Event.userJoined r ⟨sid, u.username⟩ (setAdd room.users sid).length)) := by
  simp [execJoinRoom, hr, hu, joinedState]

/-- The channel table after socket.leave in the leave-room handler. -/
def leftChannels (s : ServerState) (sid : Nat) (rid : String) : List (String × List Nat) :=
  match alookup s.channels rid with
  | none => s.channels
  | some l => aset s.channels rid (setDel l sid)

/-- The state after a leave-room action with room and user both present. -/
def leftState (s : ServerState) (sid : Nat) (rid : String) (room : RoomRec)
    (u : UserRec) : ServerState :=
  { rooms := aset s.rooms rid { room with users := setDel room.users sid },
    users := aset s.users sid { u with currentRoom := none },
    channels := leftChannels s sid rid }

theorem execLeaveRoom_some (s : ServerState) (sid : Nat) (rid : String) (room : RoomRec)
    (u : UserRec) (hr : alookup s.rooms rid = some room) (hu : alookup s.users sid = some u) :
    execLeaveRoom s sid rid =
      (leftState s sid rid room u,
       (setDel ((alookup (leftChannels s sid rid) rid).getD []) sid).map
         (fun r => Event.userLeft r ⟨u.id, u.username⟩ (setDel room.users sid).length)) := by
  simp [execLeaveRoom, hr, hu, leftState, leftChannels]

theorem execLeaveRoom_noRoom (s : ServerState) (sid : Nat) (rid : String)
    (h : alookup s.rooms rid = none) : execLeaveRoom s sid rid = (s, []) := by
  simp [execLeaveRoom, h]

theorem execLeaveRoom_noUser (s : ServerState) (sid : Nat) (rid : String)
    (h : alookup s.users sid = none) : execLeaveRoom s sid rid = (s, []) := by
  cases hr : alookup s.rooms rid <;> simp [execLeaveRoom, hr, h]

theorem channelOf_leftChannels (s : ServerState) (sid : Nat) (rid : String) :
    (alookup (leftChannels s sid rid) rid).getD [] = setDel (channelOf s rid) sid := by
  unfold leftChannels channelOf
  cases h : alookup s.channels rid with
  | none => simp [h, setDel]
  | some l => simp [alookup_aset_self, h]

theorem alookup_leftChannels_ne (s : ServerState) (sid : Nat) (rid rid2 : String)
    (h : rid2 ≠ rid) :
    alookup (leftChannels s sid rid) rid2 = alookup s.channels rid2 := by
  unfold leftChannels
  cases hh : alookup s.channels rid with
  | none => rfl
  | some l => exact alookup_aset_ne _ _ _ _ h

/-- The channel table after socket.io removes a disconnecting socket. -/
def discChannels (s : ServerState) (sid : Nat) : List (String × List Nat) :=
  s.channels.map (fun p => (p.1, setDel p.2 sid))

/-- The rooms Map after the disconnect handler removed the socket. -/
def discRooms (s : ServerState) (sid : Nat) : List (String × RoomRec) :=
  s.rooms.map (fun p =>
    (p.1, if sid ∈ p.2.users then { p.2 with users := setDel p.2.users sid } else p.2))

theorem execDisconnect_def (s : ServerState) (sid : Nat) :
    execDisconnect s sid =
      ({ rooms := discRooms s sid, users := aerase s.users sid,
         channels := discChannels s sid },
       s.rooms.flatMap (fun p =>
         if sid ∈ p.2.users then
           (setDel ((alookup (discChannels s sid) p.1).getD []) sid).map
             (fun r => Event.userLeft r ⟨sid, usernameOr s sid⟩ (setDel p.2.users sid).length)
         else [])) := rfl

theorem alookup_discChannels (s : ServerState) (sid : Nat) (rid : String) :
    alookup (discChannels s sid) rid = (alookup s.channels rid).map (fun l => setDel l sid) :=
  alookup_mapSnd s.channels (fun l => setDel l sid) rid

theorem channelOf_disc (s : ServerState) (sid : Nat) (rid : String) :
    (alookup (discChannels s sid) rid).getD [] = setDel (channelOf s rid) sid := by
  rw [alookup_discChannels]
  unfold channelOf
  cases alookup s.channels rid <;> simp [setDel]

theorem alookup_discRooms (s : ServerState) (sid : Nat) (rid : String) :
    alookup (discRooms s sid) rid = (alookup s.rooms rid).map
      (fun room => if sid ∈ room.users then { room with users := setDel room.users sid }
        else room) := by
  unfold discRooms
  exact alookup_mapSnd s.rooms
    (fun room => if sid ∈ room.users then { room with users := setDel room.users sid } else room)
    rid

theorem exec_sendMessage_state (s : ServerState) (sid : Nat) (rid : String) (c : String)
    (t : Nat) : (execSendMessage s sid rid c t).1 = s := by
  unfold execSendMessage
  split
  · split <;> rfl
  · rfl

theorem execSendMessage_member (s : ServerState) (sid : Nat) (rid : String) (c : String)
    (t : Nat) (room : RoomRec) (u : UserRec) (hr : alookup s.rooms rid = some room)
    (hu : alookup s.users sid = some u) (hm : sid ∈ room.users) :
    execSendMessage s sid rid c t =
      (s, (channelOf s rid).map
        (fun r => Event.newMessage r ⟨mkMsgId t, rid, c, u.id, u.username, t⟩)) := by
  simp [execSendMessage, hr, hu, hm]

theorem execSendMessage_nonmember (s : ServerState) (sid : Nat) (rid : String) (c : String)
    (t : Nat) (room : RoomRec) (u : UserRec) (hr : alookup s.rooms rid = some room)
    (hu : alookup s.users sid = some u) (hm : sid ∉ room.users) :
    execSendMessage s sid rid c t = (s, [Event.errorEvt sid ("Not in this room")]) := by
  simp [execSendMessage, hr, hu, hm]

theorem keys_mapSnd {α β : Type} (m : List (α × β)) (g : α × β → β) :
    (m.map (fun p => (p.1, g p))).map Prod.fst = m.map Prod.fst := by
  simp [List.map_map, Function.comp]

/-! ### Invariants of reachable states -/

/-- Structural invariants maintained by every handler: duplicate-free Map
keys, duplicate-free member sets, member sets only hold registered socket
ids, every member of a room is in the matching socket.io channel, every
room record carries its own key as id, and every user record carries its
own socket id and generated username. -/
structure WF (s : ServerState) : Prop where
  roomsKeys : (s.rooms.map Prod.fst).Nodup
  usersKeys : (s.users.map Prod.fst).Nodup
  chanKeys : (s.channels.map Prod.fst).Nodup
  nodupMembers : ∀ rid room, alookup s.rooms rid = some room → room.users.Nodup
  membersReg : ∀ rid room, alookup s.rooms rid = some room →
    ∀ m ∈ room.users, (alookup s.users m).isSome = true
  membersChan : ∀ rid room, alookup s.rooms rid = some room →
    ∀ m ∈ room.users, m ∈ channelOf s rid
  idMatch : ∀ rid room, alookup s.rooms rid = some room → room.id = rid
  userFields : ∀ sid u, alookup s.users sid = some u →
    u.id = sid ∧ u.username = mkUsername sid

theorem wf_init : WF initState := by
  refine ⟨?_, ?_, ?_, ?_, ?_, ?_, ?_, ?_⟩ <;> simp [initState, alookup]

theorem wf_mk (R : List (String × RoomRec)) (U : List (Nat × UserRec))
    (C : List (String × List Nat))
    (h1 : (R.map Prod.fst).Nodup)
    (h2 : (U.map Prod.fst).Nodup)
    (h3 : (C.map Prod.fst).Nodup)
    (h4 : ∀ rid room, alookup R rid = some room → room.users.Nodup)
    (h5 : ∀ rid room, alookup R rid = some room → ∀ m ∈ room.users, (alookup U m).isSome = true)
    (h6 : ∀ rid room, alookup R rid = some room → ∀ m ∈ room.users, m ∈ (alookup C rid).getD [])
    (h7 : ∀ rid room, alookup R rid = some room → room.id = rid)
    (h8 : ∀ sid u, alookup U sid = some u → u.id = sid ∧ u.username = mkUsername sid) :
    WF ⟨R, U, C⟩ :=
  ⟨h1, h2, h3, h4, h5, h6, h7, h8⟩

theorem wf_connect (s : ServerState) (sid t : Nat) (hw : WF s)
    (ha : alookup s.users sid = none) : WF (execConnect s sid t).1 := by
  constructor
  case roomsKeys => exact hw.roomsKeys
  case usersKeys => exact nodupKeys_aset _ _ _ hw.usersKeys
  case chanKeys => exact hw.chanKeys
  case nodupMembers => exact hw.nodupMembers
  case membersReg =>
    intro rid room hr m hm
    exact isSome_alookup_aset _ _ _ _ (hw.membersReg rid room hr m hm)
  case membersChan =>
    intro rid room hr m hm
    exact hw.membersChan rid room hr m hm
  case idMatch => exact hw.idMatch
  case userFields =>
    intro sid2 u hu
    by_cases h2 : sid2 = sid
    · subst h2
      rw [show (execConnect s sid2 t).1.users = aset s.users sid2 ⟨sid2, mkUsername sid2, t, none⟩
          from rfl] at hu
      rw [alookup_aset_self] at hu
      cases hu
      exact ⟨rfl, rfl⟩
    · rw [show (execConnect s sid t).1.users = aset s.users sid ⟨sid, mkUsername sid, t, none⟩
          from rfl] at hu
      rw [alookup_aset_ne _ _ _ _ h2] at hu
      exact hw.userFields sid2 u hu


theorem wf_create (s : ServerState) (sid : Nat) (name description : Option String) (t : Nat)
    (hw : WF s) (ha : (alookup s.users sid).isSome = true) :
    WF (execCreateRoom s sid name description t).1 := by
  refine wf_mk (aset s.rooms (mkRoomId t) (createdRoom sid name description t)) s.users
    (aset s.channels (mkRoomId t) (setAdd (channelOf s (mkRoomId t)) sid))
    (nodupKeys_aset _ _ _ hw.roomsKeys) hw.usersKeys (nodupKeys_aset _ _ _ hw.chanKeys)
    ?_ ?_ ?_ ?_ hw.userFields
  · intro rid room hr
    by_cases h2 : rid = mkRoomId t
    · subst h2
      rw [alookup_aset_self] at hr
      cases hr
      simp [createdRoom]
    · rw [alookup_aset_ne _ _ _ _ h2] at hr
      exact hw.nodupMembers rid room hr
  · intro rid room hr m hm
    by_cases h2 : rid = mkRoomId t
    · subst h2
      rw [alookup_aset_self] at hr
      cases hr
      simp only [createdRoom, List.mem_singleton] at hm
      subst hm
      exact ha
    · rw [alookup_aset_ne _ _ _ _ h2] at hr
      exact hw.membersReg rid room hr m hm
  · intro rid room hr m hm
    by_cases h2 : rid = mkRoomId t
    · subst h2
      rw [alookup_aset_self] at hr
      cases hr
      simp only [createdRoom, List.mem_singleton] at hm
      subst hm
      rw [alookup_aset_self]
      simpa using self_mem_setAdd (channelOf s (mkRoomId t)) m
    · rw [alookup_aset_ne _ _ _ _ h2] at hr
      rw [alookup_aset_ne _ _ _ _ h2]
      exact hw.membersChan rid room hr m hm
  · intro rid room hr
    by_cases h2 : rid = mkRoomId t
    · subst h2
      rw [alookup_aset_self] at hr
      cases hr
      rfl
    · rw [alookup_aset_ne _ _ _ _ h2] at hr
      exact hw.idMatch rid room hr

theorem nodupKeys_mapSnd {α β : Type} (m : List (α × β)) (g : α × β → β)
    (h : (m.map Prod.fst).Nodup) : ((m.map (fun p => (p.1, g p))).map Prod.fst).Nodup := by
  rw [keys_mapSnd]
  exact h

theorem wf_join (s : ServerState) (sid : Nat) (rid : String) (hw : WF s)
    (ha : (alookup s.users sid).isSome = true) : WF (execJoinRoom s sid rid).1 := by
  cases hr : alookup s.rooms rid with
  | none =>
    rw [execJoinRoom_none s sid rid hr]
    exact hw
  | some room =>
    obtain ⟨u, hu⟩ := Option.isSome_iff_exists.mp ha
    rw [execJoinRoom_some s sid rid room u hr hu]
    refine wf_mk (aset s.rooms rid { room with users := setAdd room.users sid })
      (aset s.users sid { u with currentRoom := some rid })
      (aset s.channels rid (setAdd (channelOf s rid) sid))
      (nodupKeys_aset _ _ _ hw.roomsKeys) (nodupKeys_aset _ _ _ hw.usersKeys)
      (nodupKeys_aset _ _ _ hw.chanKeys) ?_ ?_ ?_ ?_ ?_
    · intro rid2 room2 hr2
      by_cases h2 : rid2 = rid
      · subst h2
        rw [alookup_aset_self] at hr2
        cases hr2
        exact nodup_setAdd _ _ (hw.nodupMembers rid2 room hr)
      · rw [alookup_aset_ne _ _ _ _ h2] at hr2
        exact hw.nodupMembers rid2 room2 hr2
    · intro rid2 room2 hr2 m hm
      by_cases h2 : rid2 = rid
      · subst h2
        rw [alookup_aset_self] at hr2
        cases hr2
        rcases (mem_setAdd room.users sid m).mp hm with hmem | hmeq
        · exact isSome_alookup_aset _ _ _ _ (hw.membersReg rid2 room hr m hmem)
        · subst hmeq
          rw [alookup_aset_self]
          rfl
      · rw [alookup_aset_ne _ _ _ _ h2] at hr2
        exact isSome_alookup_aset _ _ _ _ (hw.membersReg rid2 room2 hr2 m hm)
    · intro rid2 room2 hr2 m hm
      by_cases h2 : rid2 = rid
      · subst h2
        rw [alookup_aset_self] at hr2
        cases hr2
        rw [alookup_aset_self]
        rcases (mem_setAdd room.users sid m).mp hm with hmem | hmeq
        · simpa using (mem_setAdd (channelOf s rid2) sid m).mpr
            (Or.inl (hw.membersChan rid2 room hr m hmem))
        · subst hmeq
          simpa using self_mem_setAdd (channelOf s rid2) m
      · rw [alookup_aset_ne _ _ _ _ h2] at hr2
        rw [alookup_aset_ne _ _ _ _ h2]
        exact hw.membersChan rid2 room2 hr2 m hm
    · intro rid2 room2 hr2
      by_cases h2 : rid2 = rid
      · subst h2
        rw [alookup_aset_self] at hr2
        cases hr2
        exact hw.idMatch rid2 room hr
      · rw [alookup_aset_ne _ _ _ _ h2] at hr2
        exact hw.idMatch rid2 room2 hr2
    · intro sid2 u2 hu2
      by_cases h2 : sid2 = sid
      · subst h2
        rw [alookup_aset_self] at hu2
        cases hu2
        have hf := hw.userFields sid2 u hu
        exact ⟨hf.1, hf.2⟩
      · rw [alookup_aset_ne _ _ _ _ h2] at hu2
        exact hw.userFields sid2 u2 hu2

theorem wf_leave (s : ServerState) (sid : Nat) (rid : String) (hw : WF s) :
    WF (execLeaveRoom s sid rid).1 := by
  cases hr : alookup s.rooms rid with
  | none =>
    rw [execLeaveRoom_noRoom s sid rid hr]
    exact hw
  | some room =>
    cases hu : alookup s.users sid with
    | none =>
      rw [execLeaveRoom_noUser s sid rid hu]
      exact hw
    | some u =>
      rw [execLeaveRoom_some s sid rid room u hr hu]
      refine wf_mk (aset s.rooms rid { room with users := setDel room.users sid })
        (aset s.users sid { u with currentRoom := none })
        (leftChannels s sid rid)
        (nodupKeys_aset _ _ _ hw.roomsKeys) (nodupKeys_aset _ _ _ hw.usersKeys)
        ?_ ?_ ?_ ?_ ?_ ?_
      · unfold leftChannels
        cases alookup s.channels rid with
        | none => exact hw.chanKeys
        | some l => exact nodupKeys_aset _ _ _ hw.chanKeys
      · intro rid2 room2 hr2
        by_cases h2 : rid2 = rid
        · subst h2
          rw [alookup_aset_self] at hr2
          cases hr2
          exact nodup_setDel _ _ (hw.nodupMembers rid2 room hr)
        · rw [alookup_aset_ne _ _ _ _ h2] at hr2
          exact hw.nodupMembers rid2 room2 hr2
      · intro rid2 room2 hr2 m hm
        by_cases h2 : rid2 = rid
        · subst h2
          rw [alookup_aset_self] at hr2
          cases hr2
          have hm2 := (mem_setDel room.users sid m).mp hm
          exact isSome_alookup_aset _ _ _ _ (hw.membersReg rid2 room hr m hm2.1)
        · rw [alookup_aset_ne _ _ _ _ h2] at hr2
          exact isSome_alookup_aset _ _ _ _ (hw.membersReg rid2 room2 hr2 m hm)
      · intro rid2 room2 hr2 m hm
        by_cases h2 : rid2 = rid
        · subst h2
          rw [alookup_aset_self] at hr2
          cases hr2
          have hm2 := (mem_setDel room.users sid m).mp hm
          rw [channelOf_leftChannels]
          exact (mem_setDel (channelOf s rid2) sid m).mpr
            ⟨hw.membersChan rid2 room hr m hm2.1, hm2.2⟩
        · rw [alookup_leftChannels_ne s sid rid rid2 h2]
          rw [alookup_aset_ne _ _ _ _ h2] at hr2
          exact hw.membersChan rid2 room2 hr2 m hm
      · intro rid2 room2 hr2
        by_cases h2 : rid2 = rid
        · subst h2
          rw [alookup_aset_self] at hr2
          cases hr2
          exact hw.idMatch rid2 room hr
        · rw [alookup_aset_ne _ _ _ _ h2] at hr2
          exact hw.idMatch rid2 room2 hr2
      · intro sid2 u2 hu2
        by_cases h2 : sid2 = sid
        · subst h2
          rw [alookup_aset_self] at hu2
          cases hu2
          have hf := hw.userFields sid2 u hu
          exact ⟨hf.1, hf.2⟩
        · rw [alookup_aset_ne _ _ _ _ h2] at hu2
          exact hw.userFields sid2 u2 hu2

theorem wf_disconnect (s : ServerState) (sid : Nat) (hw : WF s) :
    WF (execDisconnect s sid).1 := by
  rw [execDisconnect_def]
  refine wf_mk (discRooms s sid) (aerase s.users sid) (discChannels s sid)
    ?_ (nodupKeys_aerase _ _ hw.usersKeys) ?_ ?_ ?_ ?_ ?_ ?_
  · unfold discRooms
    exact nodupKeys_mapSnd s.rooms _ hw.roomsKeys
  · unfold discChannels
    exact nodupKeys_mapSnd s.channels _ hw.chanKeys
  · intro rid room2 hr2
    rw [alookup_discRooms] at hr2
    cases hro : alookup s.rooms rid with
    | none => rw [hro] at hr2; simp at hr2
    | some room =>
      rw [hro] at hr2
      simp only [Option.map_some'] at hr2
      cases hr2
      by_cases hmem : sid ∈ room.users
      · rw [if_pos hmem]
        exact nodup_setDel _ _ (hw.nodupMembers rid room hro)
      · rw [if_neg hmem]
        exact hw.nodupMembers rid room hro
  · intro rid room2 hr2 m hm
    rw [alookup_discRooms] at hr2
    cases hro : alookup s.rooms rid with
    | none => rw [hro] at hr2; simp at hr2
    | some room =>
      rw [hro] at hr2
      simp only [Option.map_some'] at hr2
      cases hr2
      have hprops : m ∈ room.users ∧ m ≠ sid := by
        by_cases hmem : sid ∈ room.users
        · rw [if_pos hmem] at hm
          exact (mem_setDel room.users sid m).mp hm
        · rw [if_neg hmem] at hm
          exact ⟨hm, fun he => hmem (he ▸ hm)⟩
      rw [alookup_aerase]
      rw [if_neg hprops.2]
      exact hw.membersReg rid room hro m hprops.1
  · intro rid room2 hr2 m hm
    rw [alookup_discRooms] at hr2
    cases hro : alookup s.rooms rid with
    | none => rw [hro] at hr2; simp at hr2
    | some room =>
      rw [hro] at hr2
      simp only [Option.map_some'] at hr2
      cases hr2
      have hprops : m ∈ room.users ∧ m ≠ sid := by
        by_cases hmem : sid ∈ room.users
        · rw [if_pos hmem] at hm
          exact (mem_setDel room.users sid m).mp hm
        · rw [if_neg hmem] at hm
          exact ⟨hm, fun he => hmem (he ▸ hm)⟩
      rw [channelOf_disc]
      exact (mem_setDel (channelOf s rid) sid m).mpr
        ⟨hw.membersChan rid room hro m hprops.1, hprops.2⟩
  · intro rid room2 hr2
    rw [alookup_discRooms] at hr2
    cases hro : alookup s.rooms rid with
    | none => rw [hro] at hr2; simp at hr2
    | some room =>
      rw [hro] at hr2
      simp only [Option.map_some'] at hr2
      cases hr2
      by_cases hmem : sid ∈ room.users
      · rw [if_pos hmem]
        exact hw.idMatch rid room hro
      · rw [if_neg hmem]
        exact hw.idMatch rid room hro
  · intro sid2 u2 hu2
    rw [alookup_aerase] at hu2
    by_cases h2 : sid2 = sid
    · rw [if_pos h2] at hu2
      exact Option.noConfusion hu2
    · rw [if_neg h2] at hu2
      exact hw.userFields sid2 u2 hu2

theorem wf_exec (s : ServerState) (a : Act) (t : Nat) (hw : WF s)
    (ha : allowedB s a = true) : WF (exec s a t).1 := by
  cases a with
  | connect sid =>
    have h0 : alookup s.users sid = none := by
      simpa [allowedB, Option.isNone_iff_eq_none] using ha
    exact wf_connect s sid t hw h0
  | getRooms sid => exact hw
  | createRoom sid name description =>
    have h0 : (alookup s.users sid).isSome = true := by simpa [allowedB] using ha
    exact wf_create s sid name description t hw h0
  | joinRoom sid rid =>
    have h0 : (alookup s.users sid).isSome = true := by simpa [allowedB] using ha
    exact wf_join s sid rid hw h0
  | sendMessage sid rid c =>
    have h0 : (exec s (Act.sendMessage sid rid c) t).1 = s := exec_sendMessage_state s sid rid c t
    rw [h0]
    exact hw
  | leaveRoom sid rid => exact wf_leave s sid rid hw
  | disconnect sid => exact wf_disconnect s sid hw

theorem reach_WF (s : ServerState) (h : Reach s) : WF s := by
  induction h with
  | init => exact wf_init
  | next s a t h ha ih => exact wf_exec s a t ih ha

theorem allowedB_of_allowedD (s : ServerState) (a : Act) (t : Nat)
    (h : allowedD s a t = true) : allowedB s a = true := by
  unfold allowedD at h
  exact ((Bool.and_eq_true _ _).mp h).1

theorem reach_of_reachD (s : ServerState) (h : ReachD s) : Reach s := by
  induction h with
  | init => exact Reach.init
  | next s a t h ha ih => exact Reach.next s a t ih (allowedB_of_allowedD s a t ha)

theorem reachD_runTrace (tr : List (Act × Nat)) : ∀ s : ServerState, ReachD s →
    traceOKD s tr = true → ReachD (runTrace s tr) := by
  induction tr with
  | nil =>
    intro s hs _
    exact hs
  | cons p rest ih =>
    intro s hs hok
    obtain ⟨a, t⟩ := p
    simp only [traceOKD, Bool.and_eq_true] at hok
    exact ih (exec s a t).1 (ReachD.next s a t hs hok.1) hok.2

/-! ### Channel and member set agreement in collision-free traces -/

/-- In collision-free traces every channel belongs to an existing room and
the channel membership that io.to consults is exactly the member set of
that room.  A same-millisecond create-room collision breaks this: Map.set
replaces the room record (fresh member set) while the stale creator stays
in the socket.io channel. -/
structure WFD (s : ServerState) : Prop where
  chanDom : ∀ rid l, alookup s.channels rid = some l → (alookup s.rooms rid).isSome = true
  chanEq : ∀ rid room, alookup s.rooms rid = some room → channelOf s rid = room.users

theorem wfd_mk (R : List (String × RoomRec)) (U : List (Nat × UserRec))
    (C : List (String × List Nat))
    (h1 : ∀ rid l, alookup C rid = some l → (alookup R rid).isSome = true)
    (h2 : ∀ rid room, alookup R rid = some room → (alookup C rid).getD [] = room.users) :
    WFD ⟨R, U, C⟩ :=
  ⟨h1, h2⟩

theorem wfd_init : WFD initState := by
  refine ⟨?_, ?_⟩ <;> intro rid x h <;> simp [initState, alookup] at h

theorem wfd_connect (s : ServerState) (sid t : Nat) (hd : WFD s) :
    WFD (execConnect s sid t).1 :=
  ⟨hd.chanDom, hd.chanEq⟩

theorem wfd_create (s : ServerState) (sid : Nat) (name description : Option String) (t : Nat)
    (hd : WFD s) (hfresh : alookup s.rooms (mkRoomId t) = none) :
    WFD (execCreateRoom s sid name description t).1 := by
  have hchan : alookup s.channels (mkRoomId t) = none := by
    cases hc : alookup s.channels (mkRoomId t) with
    | none => rfl
    | some l =>
      have := hd.chanDom (mkRoomId t) l hc
      rw [hfresh] at this
      simp at this
  refine wfd_mk (aset s.rooms (mkRoomId t) (createdRoom sid name description t)) s.users
    (aset s.channels (mkRoomId t) (setAdd (channelOf s (mkRoomId t)) sid)) ?_ ?_
  · intro rid l hl
    by_cases h2 : rid = mkRoomId t
    · subst h2
      rw [alookup_aset_self]
      rfl
    · rw [alookup_aset_ne _ _ _ _ h2] at hl
      exact isSome_alookup_aset _ _ _ _ (hd.chanDom rid l hl)
  · intro rid room hr
    by_cases h2 : rid = mkRoomId t
    · subst h2
      rw [alookup_aset_self] at hr
      cases hr
      rw [alookup_aset_self]
      have hempty : channelOf s (mkRoomId t) = [] := by
        unfold channelOf
        rw [hchan]
        rfl
      simp [hempty, setAdd, createdRoom]
    · rw [alookup_aset_ne _ _ _ _ h2] at hr
      rw [alookup_aset_ne _ _ _ _ h2]
      exact hd.chanEq rid room hr

theorem wfd_join (s : ServerState) (sid : Nat) (rid : String) (hd : WFD s)
    (ha : (alookup s.users sid).isSome = true) : WFD (execJoinRoom s sid rid).1 := by
  cases hr : alookup s.rooms rid with
  | none =>
    rw [execJoinRoom_none s sid rid hr]
    exact hd
  | some room =>
    obtain ⟨u, hu⟩ := Option.isSome_iff_exists.mp ha
    rw [execJoinRoom_some s sid rid room u hr hu]
    refine wfd_mk (aset s.rooms rid { room with users := setAdd room.users sid })
      (aset s.users sid { u with currentRoom := some rid })
      (aset s.channels rid (setAdd (channelOf s rid) sid)) ?_ ?_
    · intro rid2 l hl
      by_cases h2 : rid2 = rid
      · subst h2
        rw [alookup_aset_self]
        rfl
      · rw [alookup_aset_ne _ _ _ _ h2] at hl
        exact isSome_alookup_aset _ _ _ _ (hd.chanDom rid2 l hl)
    · intro rid2 room2 hr2
      by_cases h2 : rid2 = rid
      · subst h2
        rw [alookup_aset_self] at hr2
        cases hr2
        rw [alookup_aset_self]
        have := hd.chanEq rid2 room hr
        simp [this]
      · rw [alookup_aset_ne _ _ _ _ h2] at hr2
        rw [alookup_aset_ne _ _ _ _ h2]
        exact hd.chanEq rid2 room2 hr2

theorem wfd_leave (s : ServerState) (sid : Nat) (rid : String) (hd : WFD s) :
    WFD (execLeaveRoom s sid rid).1 := by
  cases hr : alookup s.rooms rid with
  | none =>
    rw [execLeaveRoom_noRoom s sid rid hr]
    exact hd
  | some room =>
    cases hu : alookup s.users sid with
    | none =>
      rw [execLeaveRoom_noUser s sid rid hu]
      exact hd
    | some u =>
      rw [execLeaveRoom_some s sid rid room u hr hu]
      refine wfd_mk (aset s.rooms rid { room with users := setDel room.users sid })
        (aset s.users sid { u with currentRoom := none })
        (leftChannels s sid rid) ?_ ?_
      · intro rid2 l hl
        by_cases h2 : rid2 = rid
        · subst h2
          rw [alookup_aset_self]
          rfl
        · rw [alookup_leftChannels_ne s sid rid rid2 h2] at hl
          exact isSome_alookup_aset _ _ _ _ (hd.chanDom rid2 l hl)
      · intro rid2 room2 hr2
        by_cases h2 : rid2 = rid
        · subst h2
          rw [alookup_aset_self] at hr2
          cases hr2
          rw [channelOf_leftChannels]
          rw [hd.chanEq rid2 room hr]
        · rw [alookup_aset_ne _ _ _ _ h2] at hr2
          rw [alookup_leftChannels_ne s sid rid rid2 h2]
          exact hd.chanEq rid2 room2 hr2

theorem wfd_disconnect (s : ServerState) (sid : Nat) (hd : WFD s) :
    WFD (execDisconnect s sid).1 := by
  rw [execDisconnect_def]
  refine wfd_mk (discRooms s sid) (aerase s.users sid) (discChannels s sid) ?_ ?_
  · intro rid l hl
    rw [alookup_discChannels] at hl
    rw [alookup_discRooms]
    cases hc : alookup s.channels rid with
    | none =>
      rw [hc] at hl
      simp at hl
    | some l0 =>
      have := hd.chanDom rid l0 hc
      cases hro : alookup s.rooms rid with
      | none =>
        rw [hro] at this
        simp at this
      | some room => simp [hro]
  · intro rid room2 hr2
    rw [alookup_discRooms] at hr2
    cases hro : alookup s.rooms rid with
    | none =>
      rw [hro] at hr2
      simp at hr2
    | some room =>
      rw [hro] at hr2
      simp only [Option.map_some'] at hr2
      cases hr2
      rw [channelOf_disc]
      rw [hd.chanEq rid room hro]
      by_cases hmem : sid ∈ room.users
      · rw [if_pos hmem]
      · rw [if_neg hmem]
        exact setDel_of_not_mem room.users sid hmem

theorem allowedD_create_fresh (s : ServerState) (sid : Nat)
    (name description : Option String) (t : Nat)
    (h : allowedD s (Act.createRoom sid name description) t = true) :
    alookup s.rooms (mkRoomId t) = none := by
  unfold allowedD at h
  have h2 := ((Bool.and_eq_true _ _).mp h).2
  simpa [Option.isNone_iff_eq_none] using h2

theorem wfd_exec (s : ServerState) (a : Act) (t : Nat) (hd : WFD s)
    (ha : allowedD s a t = true) : WFD (exec s a t).1 := by
  have hb := allowedB_of_allowedD s a t ha
  cases a with
  | connect sid => exact wfd_connect s sid t hd
  | getRooms sid => exact hd
  | createRoom sid name description =>
    exact wfd_create s sid name description t hd
      (allowedD_create_fresh s sid name description t ha)
  | joinRoom sid rid =>
    have h0 : (alookup s.users sid).isSome = true := by simpa [allowedB] using hb
    exact wfd_join s sid rid hd h0
  | sendMessage sid rid c =>
    have h0 : (exec s (Act.sendMessage sid rid c) t).1 = s := exec_sendMessage_state s sid rid c t
    rw [h0]
    exact hd
  | leaveRoom sid rid => exact wfd_leave s sid rid hd
  | disconnect sid => exact wfd_disconnect s sid hd

theorem reachD_WFD (s : ServerState) (h : ReachD s) : WFD s := by
  induction h with
  | init => exact wfd_init
  | next s a t h ha ih => exact wfd_exec s a t ih ha

/-! ### Dispatcher level restatements of the handler shapes -/

theorem exec_join_none (s : ServerState) (sid : Nat) (rid : String) (t : Nat)
    (h : alookup s.rooms rid = none) :
    exec s (Act.joinRoom sid rid) t = (s, [Event.errorEvt sid ("Room not found")]) :=
  execJoinRoom_none s sid rid h

theorem exec_join_some (s : ServerState) (sid : Nat) (rid : String) (t : Nat) (room : RoomRec)
    (u : UserRec) (hr : alookup s.rooms rid = some room) (hu : alookup s.users sid = some u) :
    exec s (Act.joinRoom sid rid) t =
      (joinedState s sid rid room u,
       Event.roomJoined sid ⟨room.id, room.name, room.description, (setAdd room.users sid).length⟩
           ((setAdd room.users sid).map
             (fun m => ⟨m, usernameOr (joinedState s sid rid room u) m⟩))
         :: (setDel (setAdd (channelOf s rid) sid) sid).map
           (fun r => Event.userJoined r ⟨sid, u.username⟩ (setAdd room.users sid).length)) :=
  execJoinRoom_some s sid rid room u hr hu

theorem execJoinRoom_noUser (s : ServerState) (sid : Nat) (rid : String) (room : RoomRec)
    (hr : alookup s.rooms rid = some room) (hu : alookup s.users sid = none) :
    execJoinRoom s sid rid =
      ({ rooms := aset s.rooms rid { room with users := setAdd room.users sid },
         users := s.users,
         channels := aset s.channels rid (setAdd (channelOf s rid) sid) }, []) := by
  simp [execJoinRoom, hr, hu]

theorem exec_join_noUser (s : ServerState) (sid : Nat) (rid : String) (t : Nat) (room : RoomRec)
    (hr : alookup s.rooms rid = some room) (hu : alookup s.users sid = none) :
    exec s (Act.joinRoom sid rid) t =
      ({ rooms := aset s.rooms rid { room with users := setAdd room.users sid },
         users := s.users,
         channels := aset s.channels rid (setAdd (channelOf s rid) sid) }, []) :=
  execJoinRoom_noUser s sid rid room hr hu

theorem exec_leave_some (s : ServerState) (sid : Nat) (rid : String) (t : Nat) (room : RoomRec)
    (u : UserRec) (hr : alookup s.rooms rid = some room) (hu : alookup s.users sid = some u) :
    exec s (Act.leaveRoom sid rid) t =
      (leftState s sid rid room u,
       (setDel ((alookup (leftChannels s sid rid) rid).getD []) sid).map
         (fun r => Event.userLeft r ⟨u.id, u.username⟩ (setDel room.users sid).length)) :=
  execLeaveRoom_some s sid rid room u hr hu

theorem exec_leave_noRoom (s : ServerState) (sid : Nat) (rid : String) (t : Nat)
    (h : alookup s.rooms rid = none) : exec s (Act.leaveRoom sid rid) t = (s, []) :=
  execLeaveRoom_noRoom s sid rid h

theorem exec_leave_noUser (s : ServerState) (sid : Nat) (rid : String) (t : Nat)
    (h : alookup s.users sid = none) : exec s (Act.leaveRoom sid rid) t = (s, []) :=
  execLeaveRoom_noUser s sid rid h

theorem exec_send_member (s : ServerState) (sid : Nat) (rid : String) (c : String) (t : Nat)
    (room : RoomRec) (u : UserRec) (hr : alookup s.rooms rid = some room)
    (hu : alookup s.users sid = some u) (hm : sid ∈ room.users) :
    exec s (Act.sendMessage sid rid c) t =
      (s, (channelOf s rid).map
        (fun r => Event.newMessage r ⟨mkMsgId t, rid, c, u.id, u.username, t⟩)) :=
  execSendMessage_member s sid rid c t room u hr hu hm

theorem exec_send_nonmember (s : ServerState) (sid : Nat) (rid : String) (c : String) (t : Nat)
    (room : RoomRec) (u : UserRec) (hr : alookup s.rooms rid = some room)
    (hu : alookup s.users sid = some u) (hm : sid ∉ room.users) :
    exec s (Act.sendMessage sid rid c) t = (s, [Event.errorEvt sid ("Not in this room")]) :=
  execSendMessage_nonmember s sid rid c t room u hr hu hm

theorem exec_send_state (s : ServerState) (sid : Nat) (rid : String) (c : String) (t : Nat) :
    (exec s (Act.sendMessage sid rid c) t).1 = s :=
  exec_sendMessage_state s sid rid c t

theorem exec_create_def (s : ServerState) (sid : Nat) (name description : Option String)
    (t : Nat) : exec s (Act.createRoom sid name description) t =
      ({ rooms := aset s.rooms (mkRoomId t) (createdRoom sid name description t),
         users := s.users,
         channels := aset s.channels (mkRoomId t) (setAdd (channelOf s (mkRoomId t)) sid) },
       [Event.roomCreated sid (mkRoomId t) (orElseStr name ("New Room"))
         (orElseStr description ("Chat room"))]) :=
  execCreateRoom_def s sid name description t

theorem exec_disconnect_def (s : ServerState) (sid : Nat) (t : Nat) :
    exec s (Act.disconnect sid) t =
      ({ rooms := discRooms s sid, users := aerase s.users sid,
         channels := discChannels s sid },
       s.rooms.flatMap (fun p =>
         if sid ∈ p.2.users then
           (setDel ((alookup (discChannels s sid) p.1).getD []) sid).map
             (fun r => Event.userLeft r ⟨sid, usernameOr s sid⟩ (setDel p.2.users sid).length)
         else [])) :=
  execDisconnect_def s sid

theorem flatMap_congr_own {α β : Type} (l : List α) (f g : α → List β)
    (h : ∀ a ∈ l, f a = g a) : l.flatMap f = l.flatMap g := by
  induction l with
  | nil => rfl
  | cons x rest ih =>
    simp only [List.flatMap_cons]
    rw [h x (List.mem_cons_self x rest), ih (fun a ha => h a (List.mem_cons_of_mem x ha))]

theorem map_congr_own {α β : Type} (l : List α) (f g : α → β)
    (h : ∀ a ∈ l, f a = g a) : l.map f = l.map g := by
  induction l with
  | nil => rfl
  | cons x rest ih =>
    simp only [List.map_cons]
    rw [h x (List.mem_cons_self x rest), ih (fun a ha => h a (List.mem_cons_of_mem x ha))]

/-- Decidable check of the plain transport side conditions along a trace. -/
def traceOKB (s : ServerState) : List (Act × Nat) → Bool
  | [] => true
  | (a, t) :: rest => allowedB s a && traceOKB (exec s a t).1 rest

theorem reach_runTrace (tr : List (Act × Nat)) : ∀ s : ServerState, Reach s →
    traceOKB s tr = true → Reach (runTrace s tr) := by
  induction tr with
  | nil =>
    intro s hs _
    exact hs
  | cons p rest ih =>
    intro s hs hok
    obtain ⟨a, t⟩ := p
    simp only [traceOKB, Bool.and_eq_true] at hok
    exact ih (exec s a t).1 (Reach.next s a t hs hok.1) hok.2

/-! ### Concrete states used by witnesses and counterexamples -/

/-- A collision-free trace: three connections; socket 1 creates a room at
millisecond 10; socket 2 joins it; socket 3 stays outside. -/
def trW : List (Act × Nat) :=
  [(Act.connect 1, 0), (Act.connect 2, 1), (Act.connect 3, 2),
   (Act.createRoom 1 (some ("Team")) (some ("desc")), 10),
   (Act.joinRoom 2 ("room_10"), 11)]

def sW : ServerState := runTrace initState trW

def roomW : RoomRec := ⟨"room_10", "Team", "desc", 1, 10, [1, 2]⟩

def uW2 : UserRec := ⟨2, "user_2", 1, some ("room_10")⟩

def uW3 : UserRec := ⟨3, "user_3", 2, none⟩

theorem sW_reachD : ReachD sW := reachD_runTrace trW initState ReachD.init (by decide)

/-- The collision trace: sockets 1 and 2 both create a room in millisecond
5 so both rooms get the id room_5 and the second Map.set overwrites the
first record, while socket 1 is still in the socket.io channel room_5.
Socket 1 then creates its own room at millisecond 7. -/
def trColl : List (Act × Nat) :=
  [(Act.connect 1, 0), (Act.connect 2, 1),
   (Act.createRoom 1 (some ("A")) none, 5),
   (Act.createRoom 2 (some ("B")) none, 5),
   (Act.createRoom 1 (some ("C")) none, 7)]

def sColl : ServerState := runTrace initState trColl

theorem sColl_reach : Reach sColl := reach_runTrace trColl initState Reach.init (by decide)

/-! ### Claim C1 -/

def sC1 : ServerState := runTrace initState
  [(Act.connect 1, 0), (Act.createRoom 1 none none, 5)]

/-- C1 counterexample: the content consisting of three spaces is empty
after trimming, yet the send-message handler of src/server.js broadcasts
it as a new-message to the member channel and emits no error event at all:
the handler never validates content. -/
theorem c1_counterexample :
    isBlank ("   ") = true ∧
    (exec sC1 (Act.sendMessage 1 ("room_5") ("   ")) 6).2
      = [Event.newMessage 1 ⟨"msg_6", "room_5", "   ", 1, "user_1", 6⟩] := by
  decide

/-- C1 (amended): a send-message whose content is empty after trimming is
not rejected: when the room exists and the sender is a registered member,
the state is unchanged and the blank message is broadcast as new-message
to every channel member exactly like any other message, with no error
event to anyone. -/
theorem c1_blank_content_not_rejected (s : ServerState) (sid : Nat) (rid : String)
    (content : String) (t : Nat) (room : RoomRec) (u : UserRec)
    (hr : alookup s.rooms rid = some room) (hu : alookup s.users sid = some u)
    (hm : sid ∈ room.users) (_hb : isBlank content = true) :
    exec s (Act.sendMessage sid rid content) t
      = (s, (channelOf s rid).map
          (fun r => Event.newMessage r ⟨mkMsgId t, rid, content, u.id, u.username, t⟩)) ∧
    ∀ e ∈ (exec s (Act.sendMessage sid rid content) t).2,
      ∀ target msg2, e ≠ Event.errorEvt target msg2 := by
  have hmain := exec_send_member s sid rid content t room u hr hu hm
  refine ⟨hmain, ?_⟩
  intro e he target msg2 hcontra
  rw [hmain] at he
  simp only [List.mem_map] at he
  obtain ⟨r, _, heq⟩ := he
  rw [hcontra] at heq
  exact Event.noConfusion heq

/-- C1 witness: in the concrete reachable state sW, socket 2 is a member
of room_10 and sends a two-space content; the broadcast happens and no
error is emitted. -/
theorem c1_blank_content_not_rejected_witness :
    exec sW (Act.sendMessage 2 ("room_10") ("  ")) 20
      = (sW, (channelOf sW ("room_10")).map
          (fun r => Event.newMessage r ⟨mkMsgId 20, "room_10", "  ", 2, "user_2", 20⟩)) ∧
    ∀ e ∈ (exec sW (Act.sendMessage 2 ("room_10") ("  ")) 20).2,
      ∀ target msg2, e ≠ Event.errorEvt target msg2 :=
  c1_blank_content_not_rejected sW 2 ("room_10") ("  ") 20 roomW uW2
    (by decide) (by decide) (by decide) (by decide)

/-! ### Claim C2 -/

/-- C2 counterexample: sColl is reachable under the transport contract,
socket 1 is not a member of room_5 (whose member set is exactly the
singleton 2), yet the successful send by socket 2 delivers the new-message
to socket 1 as well, because io.to targets the stale socket.io channel. -/
theorem c2_counterexample :
    Reach sColl ∧
    alookup sColl.rooms ("room_5") = some ⟨"room_5", "B", "Chat room", 2, 5, [2]⟩ ∧
    (1 ∉ ([2] : List Nat)) ∧
    (exec sColl (Act.sendMessage 2 ("room_5") ("hi")) 9).2
      = [Event.newMessage 1 ⟨"msg_9", "room_5", "hi", 2, "user_2", 9⟩,
         Event.newMessage 2 ⟨"msg_9", "room_5", "hi", 2, "user_2", 9⟩] :=
  ⟨sColl_reach, by decide, by decide, by decide⟩

/-- C2 (amended): in collision-free traces (no two create-room actions in
the same millisecond), a successful send leaves the state unchanged and
delivers the new-message to exactly the member set of the room at that
moment, sender included, and to nobody else. -/
theorem c2_delivery_exact_members (s : ServerState) (hD : ReachD s) (sid : Nat)
    (rid : String) (content : String) (t : Nat) (room : RoomRec) (u : UserRec)
    (hr : alookup s.rooms rid = some room) (hu : alookup s.users sid = some u)
    (hm : sid ∈ room.users) :
    (exec s (Act.sendMessage sid rid content) t).1 = s ∧
    (exec s (Act.sendMessage sid rid content) t).2
      = room.users.map
          (fun r => Event.newMessage r ⟨mkMsgId t, rid, content, u.id, u.username, t⟩) := by
  have hchan : channelOf s rid = room.users := (reachD_WFD s hD).chanEq rid room hr
  have hmain := exec_send_member s sid rid content t room u hr hu hm
  constructor
  · rw [hmain]
  · rw [hmain, ← hchan]

/-- C2 witness: at the concrete collision-free state sW the send by
member 2 is delivered to exactly the members 1 and 2 of room_10. -/
theorem c2_delivery_exact_members_witness :
    (exec sW (Act.sendMessage 2 ("room_10") ("hi")) 21).1 = sW ∧
    (exec sW (Act.sendMessage 2 ("room_10") ("hi")) 21).2
      = roomW.users.map
          (fun r => Event.newMessage r ⟨mkMsgId 21, "room_10", "hi", 2, "user_2", 21⟩) :=
  c2_delivery_exact_members sW sW_reachD 2 ("room_10") ("hi") 21 roomW uW2
    (by decide) (by decide) (by decide)

/-! ### Claim C4 -/

/-- C4: a send-message by a registered connection to an existing room it
is not a member of leaves the state unchanged and produces exactly one
error event to the sender, so no new-message is broadcast to anyone. -/
theorem c4_nonmember_send_rejected (s : ServerState) (sid : Nat) (rid : String)
    (content : String) (t : Nat) (room : RoomRec) (u : UserRec)
    (hr : alookup s.rooms rid = some room) (hu : alookup s.users sid = some u)
    (hm : sid ∉ room.users) :
    exec s (Act.sendMessage sid rid content) t
      = (s, [Event.errorEvt sid ("Not in this room")]) :=
  exec_send_nonmember s sid rid content t room u hr hu hm

/-- C4 witness: registered socket 3 sends to room_10 without being a
member and receives only the error event. -/
theorem c4_nonmember_send_rejected_witness :
    exec sW (Act.sendMessage 3 ("room_10") ("hi")) 22
      = (sW, [Event.errorEvt 3 ("Not in this room")]) :=
  c4_nonmember_send_rejected sW 3 ("room_10") ("hi") 22 roomW uW3
    (by decide) (by decide) (by decide)

/-! ### Claim C3 -/

def trC3 : List (Act × Nat) :=
  [(Act.connect 1, 0), (Act.createRoom 1 (some ("T")) none, 0),
   (Act.leaveRoom 1 ("room_0"), 1), (Act.getRooms 1, 400000)]

/-- C3 counterexample: the room room_0 becomes empty at millisecond 1 and
the trace runs on past millisecond 400000, well beyond the five minute
grace period, yet the room is still present with zero members and its
metadata intact: src/server.js contains no deletion of any kind, so the
deletion the claim requires at grace-period expiry never happens. -/
theorem c3_counterexample :
    Reach (runTrace initState trC3) ∧
    1 + gracePeriodMs < 400000 ∧
    alookup (runTrace initState trC3).rooms ("room_0")
      = some ⟨"room_0", "T", "Chat room", 1, 0, []⟩ :=
  ⟨reach_runTrace trC3 initState Reach.init (by decide), by decide, by decide⟩

/-- C3 (amended): no operation ever removes a room: every handler
preserves the presence of every existing room id, so an empty room is
never deleted, at the grace-period expiry or ever; there is no deferred
deletion in src/server.js (and no message history to discard). -/
theorem c3_rooms_never_deleted (s : ServerState) (a : Act) (t : Nat) (rid : String)
    (h : (alookup s.rooms rid).isSome = true) :
    (alookup (exec s a t).1.rooms rid).isSome = true := by
  cases a with
  | connect sid => exact h
  | getRooms sid => exact h
  | createRoom sid name description =>
    rw [exec_create_def]
    exact isSome_alookup_aset _ _ _ _ h
  | joinRoom sid rid2 =>
    cases hr : alookup s.rooms rid2 with
    | none =>
      rw [exec_join_none s sid rid2 t hr]
      exact h
    | some room =>
      cases hu : alookup s.users sid with
      | none =>
        rw [exec_join_noUser s sid rid2 t room hr hu]
        exact isSome_alookup_aset _ _ _ _ h
      | some u =>
        rw [exec_join_some s sid rid2 t room u hr hu]
        exact isSome_alookup_aset _ _ _ _ h
  | sendMessage sid rid2 c =>
    rw [exec_send_state]
    exact h
  | leaveRoom sid rid2 =>
    cases hr : alookup s.rooms rid2 with
    | none =>
      rw [exec_leave_noRoom s sid rid2 t hr]
      exact h
    | some room =>
      cases hu : alookup s.users sid with
      | none =>
        rw [exec_leave_noUser s sid rid2 t hu]
        exact h
      | some u =>
        rw [exec_leave_some s sid rid2 t room u hr hu]
        exact isSome_alookup_aset _ _ _ _ h
  | disconnect sid =>
    rw [exec_disconnect_def]
    show (alookup (discRooms s sid) rid).isSome = true
    rw [alookup_discRooms]
    cases hro : alookup s.rooms rid with
    | none =>
      rw [hro] at h
      simp at h
    | some room => simp

/-- C3 witness: the room room_10 survives a disconnect of its creator. -/
theorem c3_rooms_never_deleted_witness :
    (alookup (exec sW (Act.disconnect 1) 99).1.rooms ("room_10")).isSome = true :=
  c3_rooms_never_deleted sW (Act.disconnect 1) 99 ("room_10") (by decide)

/-! ### Claim C5 -/

/-- C5 counterexample: in the reachable collision state, disconnecting
socket 2 emits its single user-left delivery to socket 1, although the
remaining member set of room_5 is empty after the removal and the only
room socket 1 belongs to is room_7, a room socket 2 never belonged to. -/
theorem c5_counterexample :
    Reach sColl ∧
    (exec sColl (Act.disconnect 2) 9).2 = [Event.userLeft 1 ⟨2, "user_2"⟩ 0] ∧
    alookup sColl.rooms ("room_5") = some ⟨"room_5", "B", "Chat room", 2, 5, [2]⟩ ∧
    alookup sColl.rooms ("room_7") = some ⟨"room_7", "C", "Chat room", 1, 7, [1]⟩ ∧
    (2 ∉ ([1] : List Nat)) :=
  ⟨sColl_reach, by decide, by decide, by decide, by decide⟩

/-- C5 (amended): in collision-free traces, disconnecting a registered
connection produces exactly one user-left fan-out per room the connection
belonged to, delivered to exactly that room's remaining members with the
decremented member count, and no event at all for rooms the connection did
not belong to. -/
theorem c5_disconnect_fanout (s : ServerState) (hD : ReachD s) (sid : Nat) (u : UserRec)
    (t : Nat) (hu : alookup s.users sid = some u) :
    (exec s (Act.disconnect sid) t).2
      = s.rooms.flatMap (fun p =>
          if sid ∈ p.2.users then
            (setDel p.2.users sid).map
              (fun r => Event.userLeft r ⟨sid, u.username⟩ (setDel p.2.users sid).length)
          else []) := by
  have hw := reach_WF s (reach_of_reachD s hD)
  have hd := reachD_WFD s hD
  have huser := hw.userFields sid u hu
  have hname : usernameOr s sid = u.username := by
    unfold usernameOr
    rw [hu]
    have hne : u.username ≠ "" := by
      rw [huser.2]
      exact mkUsername_ne_empty sid
    simp [hne]
  rw [exec_disconnect_def]
  show s.rooms.flatMap _ = s.rooms.flatMap _
  refine flatMap_congr_own s.rooms _ _ ?_
  intro p hp
  by_cases hmem : sid ∈ p.2.users
  · rw [if_pos hmem, if_pos hmem]
    have hpl : alookup s.rooms p.1 = some p.2 := mem_alookup s.rooms p hw.roomsKeys hp
    have hchan : channelOf s p.1 = p.2.users := hd.chanEq p.1 p.2 hpl
    rw [channelOf_disc, hchan, setDel_setDel_self, hname]
  · rw [if_neg hmem, if_neg hmem]

/-- C5 witness: disconnecting socket 2 at the concrete state sW produces
exactly the user-left deliveries prescribed per room. -/
theorem c5_disconnect_fanout_witness :
    (exec sW (Act.disconnect 2) 30).2
      = sW.rooms.flatMap (fun p =>
          if 2 ∈ p.2.users then
            (setDel p.2.users 2).map
              (fun r => Event.userLeft r ⟨2, "user_2"⟩ (setDel p.2.users 2).length)
          else []) :=
  c5_disconnect_fanout sW sW_reachD 2 uW2 30 (by decide)

/-! ### Claim C6 -/

/-- The room-joined deliveries of an event log, in order. -/
def roomJoinedEvents (evs : List Event) : List Event :=
  evs.filter (fun e =>
    match e with
    | Event.roomJoined _ _ _ => true
    | _ => false)

def trA2 : List (Act × Nat) :=
  [(Act.connect 1, 0), (Act.createRoom 1 (some ("T")) none, 5),
   (Act.connect 2, 6), (Act.joinRoom 2 ("room_5"), 7)]

def trB2 : List (Act × Nat) :=
  [(Act.connect 1, 0), (Act.createRoom 1 (some ("T")) none, 5),
   (Act.sendMessage 1 ("room_5") ("hello"), 6),
   (Act.connect 2, 6), (Act.joinRoom 2 ("room_5"), 7)]

/-- C6 counterexample: the traces trA2 and trB2 differ only in that trB2
successfully broadcasts one message to the room before socket 2 joins, so
their retained histories differ; yet the room-joined responses of the two
runs are identical, so the response delivered to the joiner cannot contain
the retained message history, contradicting the claim.  The server keeps
no message log, and the room-joined payload carries the member list, not
any history. -/
theorem c6_counterexample :
    roomJoinedEvents (runEvents initState trA2)
      = roomJoinedEvents (runEvents initState trB2) ∧
    specHistory trA2 ("room_5") = [] ∧
    specHistory trB2 ("room_5") = [⟨"msg_6", "room_5", "hello", 1, "user_1", 6⟩] ∧
    roomJoinedEvents (runEvents initState trA2)
      = [Event.roomJoined 2 ⟨"room_5", "T", "Chat room", 2⟩
          [⟨1, "user_1"⟩, ⟨2, "user_2"⟩]] := by
  decide

/-- C6 (amended): for every join of an existing room by a registered
connection, the first event emitted is the room-joined response to the
joiner, and it contains the room metadata (id, name, description), the
updated member count of the room record actually stored after the join,
and the list of current members with their usernames; it contains no
message history, since the server retains none. -/
theorem c6_room_joined_payload (s : ServerState) (h : Reach s) (sid : Nat) (rid : String)
    (t : Nat) (room : RoomRec) (u : UserRec)
    (hr : alookup s.rooms rid = some room) (hu : alookup s.users sid = some u) :
    ∃ room2, alookup (exec s (Act.joinRoom sid rid) t).1.rooms rid = some room2 ∧
      room2.users = setAdd room.users sid ∧
      (exec s (Act.joinRoom sid rid) t).2.head?
        = some (Event.roomJoined sid ⟨rid, room.name, room.description, room2.users.length⟩
            (room2.users.map (fun m => ⟨m, usernameOr s m⟩))) := by
  have hw := reach_WF s h
  have hid : room.id = rid := hw.idMatch rid room hr
  have husers : ∀ m, usernameOr (joinedState s sid rid room u) m = usernameOr s m := by
    intro m
    by_cases h2 : m = sid
    · have hl : alookup (joinedState s sid rid room u).users m
          = some { u with currentRoom := some rid } := by
        rw [h2]
        exact alookup_aset_self _ _ _
      unfold usernameOr
      rw [hl, h2, hu]
    · have hl : alookup (joinedState s sid rid room u).users m = alookup s.users m :=
        alookup_aset_ne _ _ _ _ h2
      unfold usernameOr
      rw [hl]
  refine ⟨{ room with users := setAdd room.users sid }, ?_, rfl, ?_⟩
  · rw [exec_join_some s sid rid t room u hr hu]
    exact alookup_aset_self _ _ _
  · rw [exec_join_some s sid rid t room u hr hu]
    show some _ = some _
    rw [hid]
    have hmap : (setAdd room.users sid).map
        (fun m => (⟨m, usernameOr (joinedState s sid rid room u) m⟩ : UserInfo))
        = (setAdd room.users sid).map (fun m => (⟨m, usernameOr s m⟩ : UserInfo)) :=
      map_congr_own _ _ _ (fun m _ => by rw [husers m])
    rw [hmap]

/-- C6 witness: socket 3 joins room_10 at the concrete state sW and its
room-joined response carries the metadata, the updated count 3, and the
member list with usernames. -/
theorem c6_room_joined_payload_witness :
    ∃ room2, alookup (exec sW (Act.joinRoom 3 ("room_10")) 40).1.rooms ("room_10")
        = some room2 ∧
      room2.users = setAdd roomW.users 3 ∧
      (exec sW (Act.joinRoom 3 ("room_10")) 40).2.head?
        = some (Event.roomJoined 3 ⟨"room_10", roomW.name, roomW.description,
            room2.users.length⟩
            (room2.users.map (fun m => ⟨m, usernameOr sW m⟩))) :=
  c6_room_joined_payload sW (reach_of_reachD sW sW_reachD) 3 ("room_10") 40 roomW uW3
    (by decide) (by decide)

/-! ### Claim C7 -/

def sC7a : ServerState := runTrace initState [(Act.connect 1, 0), (Act.connect 2, 1)]

def sC7b : ServerState := (exec sC7a (Act.createRoom 1 (some ("First")) none) 5).1

/-- C7 counterexample: two create-room actions in the same millisecond 5
both generate the id room_5; the second Map.set overwrites the first room,
so afterwards the rooms Map holds a single record, the second one.  The
generated ids are not unique and the first id is immediately reused. -/
theorem c7_counterexample :
    (exec sC7a (Act.createRoom 1 (some ("First")) none) 5).2
      = [Event.roomCreated 1 ("room_5") ("First") ("Chat room")] ∧
    (exec sC7b (Act.createRoom 2 (some ("Second")) none) 5).2
      = [Event.roomCreated 2 ("room_5") ("Second") ("Chat room")] ∧
    (exec sC7b (Act.createRoom 2 (some ("Second")) none) 5).1.rooms
      = [(("room_5"), ⟨"room_5", "Second", "Chat room", 2, 5, [2]⟩)] := by
  decide

/-- C7 (amended): each create-room action names its room mkRoomId of the
current millisecond, and two create-room actions generate distinct ids
exactly when their Date.now() milliseconds differ: ids collide, and the
later room overwrites the earlier, only for creates within one
millisecond. -/
theorem c7_ids_distinct_timestamps (s1 s2 : ServerState) (sid1 sid2 : Nat)
    (n1 d1 n2 d2 : Option String) (t1 t2 : Nat) (h : t1 ≠ t2) :
    (exec s1 (Act.createRoom sid1 n1 d1) t1).2
      = [Event.roomCreated sid1 (mkRoomId t1) (orElseStr n1 ("New Room"))
          (orElseStr d1 ("Chat room"))] ∧
    (exec s2 (Act.createRoom sid2 n2 d2) t2).2
      = [Event.roomCreated sid2 (mkRoomId t2) (orElseStr n2 ("New Room"))
          (orElseStr d2 ("Chat room"))] ∧
    mkRoomId t1 ≠ mkRoomId t2 := by
  refine ⟨rfl, rfl, ?_⟩
  intro he
  apply h
  apply natRepr_inj
  unfold mkRoomId at he
  exact string_append_inj ("room_") _ _ he

/-- C7 witness: creates at milliseconds 5 and 7 yield the distinct ids
room_5 and room_7. -/
theorem c7_ids_distinct_timestamps_witness :
    (exec sC7a (Act.createRoom 1 (some ("First")) none) 5).2
      = [Event.roomCreated 1 (mkRoomId 5) (orElseStr (some ("First")) ("New Room"))
          (orElseStr none ("Chat room"))] ∧
    (exec sC7b (Act.createRoom 2 (some ("Second")) none) 7).2
      = [Event.roomCreated 2 (mkRoomId 7) (orElseStr (some ("Second")) ("New Room"))
          (orElseStr none ("Chat room"))] ∧
    mkRoomId 5 ≠ mkRoomId 7 :=
  c7_ids_distinct_timestamps sC7a sC7b 1 2 (some ("First")) none (some ("Second")) none 5 7
    (by decide)

/-! ### Claim C8 -/

/-- One join or leave action by connection c on room rid. -/
def jlAct (c : Nat) (rid : String) (b : Bool) : Act :=
  if b then Act.joinRoom c rid else Act.leaveRoom c rid

/-- Run a sequence of join and leave actions by the same connection on the
same room (join and leave handlers ignore the clock, so it is fixed at 0). -/
def applyJL (c : Nat) (rid : String) : ServerState → List Bool → ServerState
  | s, [] => s
  | s, b :: rest => applyJL c rid (exec s (jlAct c rid b) 0).1 rest

theorem jl_step (s : ServerState) (c : Nat) (rid : String) (b : Bool) (room : RoomRec)
    (u : UserRec) (hr : alookup s.rooms rid = some room) (hu : alookup s.users c = some u) :
    alookup (exec s (jlAct c rid b) 0).1.rooms rid
      = some { room with users := if b then setAdd room.users c else setDel room.users c } ∧
    alookup (exec s (jlAct c rid b) 0).1.users c
      = some { u with currentRoom := if b then some rid else none } := by
  cases b with
  | true =>
    rw [show jlAct c rid true = Act.joinRoom c rid from rfl]
    rw [exec_join_some s c rid 0 room u hr hu]
    exact ⟨alookup_aset_self _ _ _, alookup_aset_self _ _ _⟩
  | false =>
    rw [show jlAct c rid false = Act.leaveRoom c rid from rfl]
    rw [exec_leave_some s c rid 0 room u hr hu]
    exact ⟨alookup_aset_self _ _ _, alookup_aset_self _ _ _⟩

theorem applyJL_net (c : Nat) (rid : String) (ops : List Bool) (b : Bool) :
    ∀ (s : ServerState) (room : RoomRec) (u : UserRec),
    alookup s.rooms rid = some room → alookup s.users c = some u → room.users.Nodup →
    ∃ room2, alookup (applyJL c rid s (ops ++ [b])).rooms rid = some room2 ∧
      room2.users.filter (fun y => y ≠ c) = room.users.filter (fun y => y ≠ c) ∧
      (c ∈ room2.users ↔ b = true) ∧
      room2.users.Nodup := by
  induction ops with
  | nil =>
    intro s room u hr hu hnd
    obtain ⟨hroom, _⟩ := jl_step s c rid b room u hr hu
    refine ⟨_, hroom, ?_, ?_, ?_⟩
    · cases b with
      | true => exact setDel_setAdd_self room.users c
      | false => exact setDel_setDel_self room.users c
    · cases b with
      | true => simp [self_mem_setAdd]
      | false => simp [not_mem_setDel]
    · cases b with
      | true => exact nodup_setAdd _ _ hnd
      | false => exact nodup_setDel _ _ hnd
  | cons b0 rest ih =>
    intro s room u hr hu hnd
    obtain ⟨hroom, huser⟩ := jl_step s c rid b0 room u hr hu
    have hnd2 : (if b0 then setAdd room.users c else setDel room.users c).Nodup := by
      cases b0 with
      | true => exact nodup_setAdd _ _ hnd
      | false => exact nodup_setDel _ _ hnd
    obtain ⟨room2, h1, h2, h3, h4⟩ :=
      ih (exec s (jlAct c rid b0) 0).1 _ _ hroom huser hnd2
    refine ⟨room2, h1, ?_, h3, h4⟩
    rw [h2]
    cases b0 with
    | true => exact setDel_setAdd_self room.users c
    | false => exact setDel_setDel_self room.users c

/-- C8: join and leave are idempotent on the member set (re-joining an
existing member and re-leaving a non-member both leave the rooms Map
unchanged), and after any nonempty sequence of joins and leaves by the
same registered connection on the same existing room, the other members
are untouched, the connection is a member exactly when the last action was
a join, and the final member count is the count of the other members plus
one when net joined and plus zero otherwise. -/
theorem c8_join_leave_net_effect (s : ServerState) (h : Reach s) (c : Nat) (rid : String)
    (room : RoomRec) (u : UserRec) (hr : alookup s.rooms rid = some room)
    (hu : alookup s.users c = some u) (ops : List Bool) (b : Bool) :
    (c ∈ room.users → (exec s (Act.joinRoom c rid) 0).1.rooms = s.rooms) ∧
    (c ∉ room.users → (exec s (Act.leaveRoom c rid) 0).1.rooms = s.rooms) ∧
    ∃ room2, alookup (applyJL c rid s (ops ++ [b])).rooms rid = some room2 ∧
      room2.users.filter (fun y => y ≠ c) = room.users.filter (fun y => y ≠ c) ∧
      (c ∈ room2.users ↔ b = true) ∧
      room2.users.length
        = (room.users.filter (fun y => y ≠ c)).length + (if b then 1 else 0) := by
  have hnd : room.users.Nodup := (reach_WF s h).nodupMembers rid room hr
  refine ⟨?_, ?_, ?_⟩
  · intro hmem
    rw [exec_join_some s c rid 0 room u hr hu]
    show aset s.rooms rid { room with users := setAdd room.users c } = s.rooms
    rw [setAdd_of_mem room.users c hmem]
    exact aset_eq_of_alookup s.rooms rid room hr
  · intro hmem
    rw [exec_leave_some s c rid 0 room u hr hu]
    show aset s.rooms rid { room with users := setDel room.users c } = s.rooms
    rw [setDel_of_not_mem room.users c hmem]
    exact aset_eq_of_alookup s.rooms rid room hr
  · obtain ⟨room2, h1, h2, h3, h4⟩ := applyJL_net c rid ops b s room u hr hu hnd
    refine ⟨room2, h1, h2, h3, ?_⟩
    cases b with
    | true =>
      have hmem : c ∈ room2.users := h3.mpr rfl
      have hlen := length_setDel_of_mem room2.users c h4 hmem
      rw [if_pos rfl]
      rw [← h2]
      exact hlen
    | false =>
      have hmem : c ∉ room2.users := by
        intro hc
        simpa using h3.mp hc
      have hfix : setDel room2.users c = room2.users := setDel_of_not_mem room2.users c hmem
      rw [if_neg (by simp), ← h2]
      show room2.users.length = (setDel room2.users c).length + 0
      rw [hfix]
      omega

/-- C8 witness: socket 3 on room_10 at the concrete state sW, sequence
join then leave: re-join and re-leave idempotence hold and the final
membership follows the last action, a leave. -/
theorem c8_join_leave_net_effect_witness :
    (3 ∈ roomW.users → (exec sW (Act.joinRoom 3 ("room_10")) 0).1.rooms = sW.rooms) ∧
    (3 ∉ roomW.users → (exec sW (Act.leaveRoom 3 ("room_10")) 0).1.rooms = sW.rooms) ∧
    ∃ room2, alookup (applyJL 3 ("room_10") sW ([true] ++ [false])).rooms ("room_10")
        = some room2 ∧
      room2.users.filter (fun y => y ≠ 3) = roomW.users.filter (fun y => y ≠ 3) ∧
      (3 ∈ room2.users ↔ false = true) ∧
      room2.users.length
        = (roomW.users.filter (fun y => y ≠ 3)).length + (if false then 1 else 0) :=
  c8_join_leave_net_effect sW (reach_of_reachD sW sW_reachD) 3 ("room_10") roomW uW3
    (by decide) (by decide) [true] false

/-! ### Claim C9 -/

/-- C9: in every reachable state, a member set never holds a socket id
that is not registered in the users Map: every operation preserves the
invariant, as captured by the inductive invariant of Reach. -/
theorem c9_members_registered (s : ServerState) (h : Reach s) (rid : String) (room : RoomRec)
    (hr : alookup s.rooms rid = some room) (m : Nat) (hm : m ∈ room.users) :
    (alookup s.users m).isSome = true :=
  (reach_WF s h).membersReg rid room hr m hm

/-- C9 witness: member 1 of room_10 in the reachable state sW is
registered. -/
theorem c9_members_registered_witness : (alookup sW.users 1).isSome = true :=
  c9_members_registered sW (reach_of_reachD sW sW_reachD) ("room_10") roomW
    (by decide) 1 (by decide)

/-! ### Claim C10 -/

/-- C10: a leave-room by a registered connection that is not a member of
the existing room changes no membership (the rooms Map is untouched), yet
still emits a user-left fan-out: every member of the room receives a
user-left event for the leaver carrying the unchanged member count, and
every emitted event is such a user-left with the unchanged count. -/
theorem c10_nonmember_leave_emits (s : ServerState) (h : Reach s) (c : Nat) (rid : String)
    (room : RoomRec) (u : UserRec) (t : Nat)
    (hr : alookup s.rooms rid = some room) (hu : alookup s.users c = some u)
    (hm : c ∉ room.users) :
    (exec s (Act.leaveRoom c rid) t).1.rooms = s.rooms ∧
    (∀ m ∈ room.users,
      Event.userLeft m ⟨u.id, u.username⟩ room.users.length
        ∈ (exec s (Act.leaveRoom c rid) t).2) ∧
    (∀ e ∈ (exec s (Act.leaveRoom c rid) t).2,
      ∃ r2, e = Event.userLeft r2 ⟨u.id, u.username⟩ room.users.length) := by
  have hw := reach_WF s h
  rw [exec_leave_some s c rid t room u hr hu]
  refine ⟨?_, ?_, ?_⟩
  · show aset s.rooms rid { room with users := setDel room.users c } = s.rooms
    rw [setDel_of_not_mem room.users c hm]
    exact aset_eq_of_alookup s.rooms rid room hr
  · intro m hmem
    show Event.userLeft m ⟨u.id, u.username⟩ room.users.length
      ∈ (setDel ((alookup (leftChannels s c rid) rid).getD []) c).map
        (fun r => Event.userLeft r ⟨u.id, u.username⟩ (setDel room.users c).length)
    rw [channelOf_leftChannels, setDel_setDel_self, setDel_of_not_mem room.users c hm]
    apply List.mem_map.mpr
    refine ⟨m, ?_, rfl⟩
    exact (mem_setDel _ c m).mpr
      ⟨hw.membersChan rid room hr m hmem, fun he => hm (he ▸ hmem)⟩
  · intro e he
    obtain ⟨r2, _, heq⟩ := List.mem_map.mp he
    refine ⟨r2, ?_⟩
    rw [← heq, setDel_of_not_mem room.users c hm]

/-- C10 witness: registered non-member 3 leaves room_10; the rooms Map is
unchanged and members 1 and 2 still receive user-left with the unchanged
count 2. -/
theorem c10_nonmember_leave_emits_witness :
    (exec sW (Act.leaveRoom 3 ("room_10")) 50).1.rooms = sW.rooms ∧
    (∀ m ∈ roomW.users,
      Event.userLeft m ⟨3, "user_3"⟩ roomW.users.length
        ∈ (exec sW (Act.leaveRoom 3 ("room_10")) 50).2) ∧
    (∀ e ∈ (exec sW (Act.leaveRoom 3 ("room_10")) 50).2,
      ∃ r2, e = Event.userLeft r2 ⟨3, "user_3"⟩ roomW.users.length) :=
  c10_nonmember_leave_emits sW (reach_of_reachD sW sW_reachD) 3 ("room_10") roomW uW3 50
    (by decide) (by decide) (by decide)
